import Mathlib

/-
Verification of the extract-enrich-map pipeline of the Terraform exporter
(src/spacemk/exporters/terraform.py) against its natural-language
specification.  The Python code is shallowly embedded: dynamic benedict
records become Lean structures with Option fields for values the code may
find absent, API traffic becomes explicit response values passed in, code
paths that raise exceptions become Option/Except results, and the
enrichment saga becomes an explicit state machine over the remote state
with injected failure points.
-/

namespace Spacemk

/-! ## Slug and migration-id machinery

Models python-slugify for ASCII input (lowercase, runs of non-alphanumeric
characters become a single dash separator, leading and trailing separators
dropped) and `_generate_migration_id`, which is
`slugify("_".join(args)).replace("-", "_")`.
-/

/-- Accumulate maximal runs of (lowercased) alphanumeric characters,
dropping separator characters: the word-splitting phase of slugify. -/
def slugWordsAux : List Char → List Char → List (List Char)
  | [], acc => if acc.isEmpty then [] else [acc.reverse]
  | c :: cs, acc =>
    let d := c.toLower
    if d.isAlphanum then slugWordsAux cs (d :: acc)
    else if acc.isEmpty then slugWordsAux cs []
    else acc.reverse :: slugWordsAux cs []

/-- Join words with a single dash: the joining phase of slugify. -/
def dashJoin : List (List Char) → List Char
  | [] => []
  | [w] => w
  | w :: ws => w ++ '-' :: dashJoin ws

/-- slugify on character lists. -/
def slugifyL (cs : List Char) : List Char := dashJoin (slugWordsAux cs [])

/-- Model of `slugify(s)` from python-slugify, restricted to ASCII text. -/
def slugify (s : String) : String := ⟨slugifyL s.data⟩

/-- Model of `"_".join(args)`. -/
def joinUnderscoreL : List String → List Char
  | [] => []
  | [s] => s.data
  | s :: ss => s.data ++ '_' :: joinUnderscoreL ss

/-- Model of `str.replace("-", "_")` on character lists. -/
def replaceDashUnderscoreL (cs : List Char) : List Char :=
  cs.map (fun c => if c = '-' then '_' else c)

/-- Inverse map used only in proofs: sends an underscore back to a dash. -/
def unreplaceDashUnderscoreL (cs : List Char) : List Char :=
  cs.map (fun c => if c = '_' then '-' else c)

/-- Model of `str.replace("-", "_")` on strings. -/
def replaceDashesWithUnderscores (s : String) : String :=
  ⟨replaceDashUnderscoreL s.data⟩

/-- Model of `_generate_migration_id(*args)`:
`slugify("_".join(args)).replace("-", "_")`. -/
def generate_migration_id (args : List String) : String :=
  ⟨replaceDashUnderscoreL (slugifyL (joinUnderscoreL args))⟩

/-- Model of `_build_stack_slug(workspace)`: `slugify(attributes.name)`. -/
def build_stack_slug (name : String) : String := slugify name

/-- Model of the regular expression check
`re.search("^[a-zA-Z_]+[a-zA-Z0-9_]*$", s)`: the string is nonempty, starts
with a letter or underscore, and contains only letters, digits and
underscores. -/
def validVarName (s : String) : Bool :=
  match s.data with
  | [] => false
  | c :: cs => (c.isAlpha || c = '_') && cs.all (fun d => d.isAlphanum || d = '_')

/-- Model of a single-character `str.startswith` check. -/
def startsWithChar (s : String) (c : Char) : Bool :=
  match s.data with
  | [] => false
  | d :: _ => d = c

/-! ## API client and pagination

Models `_call_api` and the pagination/projection loop of
`_extract_data_from_api`.  A raw response object is an association list of
dotted keypaths to optional values (the shape benedict exposes); the HTTP
transport is represented by the outcome value handed to `call_api`, and a
paginated endpoint by the list of pages the server would return in order.
JSON parsing and the `drop_response_properties` pruning are absorbed into
the already-parsed `Page` value, and the compiled include regular
expression is abstracted as a Boolean predicate on names.
-/

/-- A raw API object: dotted keypath to value, `benedict.get` style. -/
abbrev RawItem := List (String × Option String)

/-- `raw_datum.get(path)`: `none` both for a missing key and a null value. -/
def rawGet (r : RawItem) (p : String) : Option String :=
  match r.lookup p with
  | some v => v
  | none => none

/-- The `data` member of a response payload: a single (truthy) object, a
collection, or missing/falsy (absent key, empty object, empty list). -/
inductive APIData where
  | obj (r : RawItem)
  | arr (rs : List RawItem)
  | empty
deriving DecidableEq

/-- A parsed response payload: its `data` member and its `links.next`
member. -/
structure Page where
  data : APIData
  next : Option String
deriving DecidableEq

/-- The page with an empty-object `data` member: the `{"data": {}}` value
`_call_api` fabricates for a 404. -/
def emptyPage : Page := ⟨APIData.empty, none⟩

/-- Outcome of one HTTP request: a response with a status code and parsed
payload, or a transport failure. -/
inductive APIOutcome where
  | response (status : Nat) (payload : Page)
  | timeout
  | connectionError
  | requestError

/-- The `RuntimeError` wrappers `_call_api` raises. -/
inductive CallError where
  | httpError (status : Nat)
  | timeout
  | connectionError
  | requestError
deriving DecidableEq

/-- Model of `_call_api`: `raise_for_status` turns any status of at least
400 into an HTTPError; a 404 is swallowed and replaced by the empty-object
payload; every other HTTPError and every transport failure is re-raised as
a RuntimeError. The method and url do not influence this handling. -/
def call_api (method url : String) (outcome : APIOutcome) : Except CallError Page :=
  match outcome with
  | APIOutcome.response status payload =>
    if 400 ≤ status then
      if status = 404 then Except.ok emptyPage
      else Except.error (CallError.httpError status)
    else Except.ok payload
  | APIOutcome.timeout => Except.error CallError.timeout
  | APIOutcome.connectionError => Except.error CallError.connectionError
  | APIOutcome.requestError => Except.error CallError.requestError

/-- Normalization of a `data` member into a list of items: a single object
is appended as one item, a collection is extended, a missing or falsy
member contributes nothing. -/
def normalizeData : APIData → List RawItem
  | APIData.obj r => [r]
  | APIData.arr rs => rs
  | APIData.empty => []

/-- The `while True` pagination loop of `_extract_data_from_api`: consume
the current page, then follow `links.next` when present, else stop.  The
argument list is the sequence of pages the server returns in order. -/
def collectRawData : List Page → List RawItem
  | [] => []
  | p :: ps =>
    normalizeData p.data ++
      (match p.next with
       | some _ => collectRawData ps
       | none => [])

/-- A well-formed page chain: every page except the last carries a
next-page link, and the last page carries none. -/
def isChain : List Page → Bool
  | [] => false
  | [p] => p.next.isNone
  | p :: ps => p.next.isSome && isChain ps

/-- The filter-and-project loop of `_extract_data_from_api`: an item with a
truthy name not matched by the include pattern is skipped; when an
attribute projection is supplied (non-None, nonempty) the item is reduced
to exactly those keypaths, otherwise nothing is appended at all. -/
def extractItems (includeMatch : String → Bool) (properties : Option (List String)) :
    List RawItem → List RawItem
  | [] => []
  | r :: rest =>
    let skip : Bool :=
      match rawGet r "attributes.name" with
      | some nm => !nm.data.isEmpty && !includeMatch nm
      | none => false
    if skip then extractItems includeMatch properties rest
    else
      match properties with
      | some ps =>
        if !ps.isEmpty then
          (ps.map (fun p => (p, rawGet r p))) :: extractItems includeMatch properties rest
        else extractItems includeMatch properties rest
      | none => extractItems includeMatch properties rest

/-- Model of `_extract_data_from_api`: paginate, then filter and project. -/
def extract_data_from_api (pages : List Page) (includeMatch : String → Bool)
    (properties : Option (List String)) : List RawItem :=
  extractItems includeMatch properties (collectRawData pages)

/-- The value `_delete_agent_pool` observes from its
`_extract_data_from_api` call: a DELETE with no attribute projection. -/
def delete_agent_pool_result (pages : List Page) (includeMatch : String → Bool) : List RawItem :=
  extract_data_from_api pages includeMatch none

/-! ## Relationship expander

Models `_expand_relationships`: records at this stage carry `_source_id`,
a human name and a raw `_relationships` map whose values are bare reference
ids (possibly null) or lists of them.  `find_entity` pluralizes the
relationship type, looks the id up by `_source_id` in that collection and
returns a clone with `_relationships` removed; a missing collection key
would make the Python loop raise, so expansion returns `none` (crash) in
that case and `some` of the expanded record otherwise.
-/

/-- A raw relationship value: one reference id or a list of them. -/
inductive RelRef where
  | one (id : Option String)
  | many (ids : List (Option String))
deriving DecidableEq

/-- A mapped record before relationship expansion. -/
structure MappedRecord where
  source_id : Option String
  name : Option String
  rels : List (String × RelRef)
deriving DecidableEq

/-- A resolved relationship value after expansion. -/
inductive ResolvedRel where
  | one (r : Option MappedRecord)
  | many (rs : List (Option MappedRecord))
deriving DecidableEq

/-- A record after relationship expansion. -/
structure ExpandedRecord where
  source_id : Option String
  name : Option String
  migration_id : String
  resolved : List (String × ResolvedRel)
deriving DecidableEq

/-- KLUDGE pluralization from `find_entity`: append a trailing s when not
already present. -/
def pluralize (t : String) : String :=
  if t.data.getLast? = some 's' then t else ⟨t.data ++ ['s']⟩

/-- The clone-and-delete of `_relationships` performed on a found entity. -/
def strip_rels (r : MappedRecord) : MappedRecord := { r with rels := [] }

/-- Model of `find_entity`: `none` when the pluralized collection is absent
from the data (the Python code would raise iterating `None`), otherwise
`some` of the lookup result (first record whose `_source_id` equals the
reference id, relationship-stripped, or null when there is none). -/
def find_entity (data : List (String × List MappedRecord)) (t : String) (id_ : Option String) :
    Option (Option MappedRecord) :=
  match data.lookup (pluralize t) with
  | none => none
  | some recs => some ((recs.find? (fun r => decide (r.source_id = id_))).map strip_rels)

/-- mapM specialised to Option, written by structural recursion. -/
def optionMapM {α β : Type} (f : α → Option β) : List α → Option (List β)
  | [] => some []
  | a :: as =>
    match f a, optionMapM f as with
    | some b, some bs => some (b :: bs)
    | _, _ => none

/-- Resolve one raw relationship value: a scalar reference resolves through
`find_entity`, a list resolves element-wise in order. -/
def resolve_rel (data : List (String × List MappedRecord)) (t : String) :
    RelRef → Option ResolvedRel
  | RelRef.one id_ => (find_entity data t id_).map ResolvedRel.one
  | RelRef.many ids => (optionMapM (find_entity data t) ids).map ResolvedRel.many

/-- Model of the per-record body of `expand_relationship`: resolve every
relationship entry and attach the freshly computed migration id (slug of
the record name).  A missing name would make `slugify` raise, hence
`none`. -/
def expandRecord (data : List (String × List MappedRecord)) (r : MappedRecord) :
    Option ExpandedRecord :=
  match r.name with
  | none => none
  | some nm =>
    match optionMapM (fun tr : String × RelRef =>
        (resolve_rel data tr.1 tr.2).map (fun res => (tr.1, res))) r.rels with
    | none => none
    | some resolved => some ⟨r.source_id, r.name, generate_migration_id [nm], resolved⟩

/-- Model of expanding one whole collection (the expander skips only the
contexts and context_variables collections, which keep the migration ids
assigned by their mapping functions). -/
def expand_collection (data : List (String × List MappedRecord))
    (recs : List MappedRecord) : Option (List ExpandedRecord) :=
  optionMapM (expandRecord data) recs

/-- Correctness of one scalar resolution against a collection: null with no
matching record, or an inlined record with matching `_source_id` and
stripped relationships. -/
def resolutionOK (recs : List MappedRecord) (id_ : Option String)
    (res : Option MappedRecord) : Prop :=
  (res = none ∧ ∀ rec ∈ recs, ¬ rec.source_id = id_) ∨
  (∃ rec, res = some rec ∧ rec.source_id = id_ ∧ rec.rels = [])

/-- Correctness of a resolved relationship value: scalar references
resolve to a correct scalar resolution, list references to the ordered
list of element-wise resolutions. -/
def relResolutionOK (recs : List MappedRecord) : RelRef → ResolvedRel → Prop
  | RelRef.one id_, ResolvedRel.one res => resolutionOK recs id_ res
  | RelRef.many ids, ResolvedRel.many rs =>
    rs.length = ids.length ∧
      ∀ i (hi : i < ids.length) (hi2 : i < rs.length),
        resolutionOK recs (ids.get ⟨i, hi⟩) (rs.get ⟨i, hi2⟩)
  | _, _ => False

/-- The property claimed for every record the expander produces. -/
def c3Resolution (data : List (String × List MappedRecord)) (r : MappedRecord) : Prop :=
  ∃ e, expandRecord data r = some e ∧
    e.source_id = r.source_id ∧
    e.resolved.length = r.rels.length ∧
    ∀ i (hi : i < r.rels.length) (hi2 : i < e.resolved.length),
      (e.resolved.get ⟨i, hi2⟩).1 = (r.rels.get ⟨i, hi⟩).1 ∧
      ∃ recs, data.lookup (pluralize (r.rels.get ⟨i, hi⟩).1) = some recs ∧
        relResolutionOK recs (r.rels.get ⟨i, hi⟩).2 (e.resolved.get ⟨i, hi2⟩).2

/-! ## Context mapping

Models `_map_contexts_data`.  After extraction every variable set carries
the projected keys, so the benedict keypath-membership tests reduce to
"the value is not None and nonempty".
-/

/-- A source variable set as seen by the mapper. -/
structure VarSet where
  id : String
  name : Option String
  description : Option String
  isGlobal : Bool
  projects : Option (List String)
  workspaces : Option (List String)
  organization : String
deriving DecidableEq

/-- A mapped context record.  The `space` and `stacks` fields hold the
migration ids placed under `_relationships`. -/
structure ContextRecord where
  migration_id : String
  source_id : String
  name : Option String
  description : Option String
  labels : List String
  space : String
  stackIds : List String
deriving DecidableEq

/-- `relationships.projects.data is not None and len(...) > 0`. -/
def hasProjects (vs : VarSet) : Bool :=
  match vs.projects with
  | some l => !l.isEmpty
  | none => false

/-- `relationships.workspaces.data is not None and len(...) > 0`. -/
def hasWorkspaces (vs : VarSet) : Bool :=
  match vs.workspaces with
  | some l => !l.isEmpty
  | none => false

/-- The composite source id `{container}_{original}` given to duplicated
context copies. -/
def compositeSourceId (container original : String) : String :=
  ⟨container.data ++ '_' :: original.data⟩

/-- The context records `_map_contexts_data` appends for one variable set:
a global set yields one auto-attached context; a project-attached set is
duplicated once per project with a composite source id; otherwise a
workspace-attached set yields one context carrying its stack list. -/
def map_context_records (vs : VarSet) : List ContextRecord :=
  if vs.isGlobal then
    [{ migration_id := generate_migration_id [vs.id],
       source_id := vs.id,
       name := vs.name,
       description := vs.description,
       labels := ["autoattach:*"],
       space := generate_migration_id [vs.organization],
       stackIds := [] }]
  else if hasProjects vs then
    (vs.projects.getD []).map (fun p =>
      { migration_id := generate_migration_id [vs.id],
        source_id := compositeSourceId p vs.id,
        name := vs.name,
        description := vs.description,
        labels := ["autoattach:*"],
        space := generate_migration_id [p],
        stackIds := [] })
  else if hasWorkspaces vs then
    [{ migration_id := generate_migration_id [vs.id],
       source_id := vs.id,
       name := vs.name,
       description := vs.description,
       labels := [],
       space := generate_migration_id [vs.organization],
       stackIds := (vs.workspaces.getD []).map (fun wid => generate_migration_id [wid]) }]
  else []

/-- Model of `_map_contexts_data` over the variable_sets collection. -/
def map_contexts_data (varsets : List VarSet) : List ContextRecord :=
  (varsets.map map_context_records).flatten

/-- The property claimed for a variable set attached to exactly two
projects: exactly two context records, distinct composite source ids,
identical name and description. -/
def c7DupSpec (vs : VarSet) (p1 p2 : String) : Prop :=
  ∃ c1 c2, map_contexts_data [vs] = [c1, c2] ∧
    c1.source_id = compositeSourceId p1 vs.id ∧
    c2.source_id = compositeSourceId p2 vs.id ∧
    ¬ c1.source_id = c2.source_id ∧
    c1.name = c2.name ∧ c1.description = c2.description

/-- The property claimed for a variable set attached only at the workspace
level: exactly one context record keeping the original source id. -/
def c7SingleSpec (vs : VarSet) : Prop :=
  ∃ c, map_contexts_data [vs] = [c] ∧ c.source_id = vs.id

/-! ## Stack and stack-variable mapping

Models `_determine_provider`, the workflow-tool selection of
`_map_stacks_data`, `find_workspace_variable_with_invalid_name` and
`_map_stack_variables_data`.
-/

/-- A source workspace as seen by the mapper.  `hasProjectKey` models the
benedict keypath test `"relationships.project.data.id" in workspace`. -/
structure Workspace where
  id : String
  name : String
  autoApply : Option Bool
  description : Option String
  terraformVersion : String
  vcsBranch : Option String
  vcsIdentifier : Option String
  vcsServiceProvider : Option String
  workingDirectory : Option String
  tagNames : Option (List String)
  organizationId : Option String
  projectId : Option String
  hasProjectKey : Bool
deriving DecidableEq

/-- A source workspace variable as seen by the mapper. -/
structure WVar where
  id : String
  key : String
  value : Option String
  sensitive : Option Bool
  category : Option String
  hcl : Option Bool
  description : Option String
  workspaceId : Option String
deriving DecidableEq

/-- A mapped stack record. -/
structure StackRecord where
  space : Option String
  source_id : String
  autodeploy : Option Bool
  description : Option String
  has_variables_with_invalid_name : Bool
  has_secret_variables_with_invalid_name : Bool
  name : String
  labels : List String
  slug : String
  terraform_version : String
  workflow_tool : String
  vcs_branch : Option String
  vcs_namespace : Option String
  vcs_project_root : Option String
  vcs_provider : Option String
  vcs_repository : Option String
deriving DecidableEq

/-- A mapped stack variable record. -/
structure StackVarRecord where
  space : Option String
  stack : Option String
  source_id : String
  description : Option String
  hcl : Option Bool
  name : String
  replacement_name : String
  var_type : String
  valid_name : Bool
  value : Option String
  write_only : Option Bool
deriving DecidableEq

/-- The `supported_providers` mapping table of `_determine_provider`. -/
def supportedProviders : List (String × String) :=
  [("github", "github_custom"),
   ("github_app", "github_custom"),
   ("github_enterprise", "github_custom"),
   ("bitbucket_server", "bitbucket_datacenter"),
   ("gitlab_hosted", "gitlab"),
   ("ado_services", "azure_devops")]

/-- Model of `str.split` on one separator character (never empty; an empty
string splits to one empty segment, as in Python). -/
def splitCharAux (sep : Char) : List Char → List Char → List (List Char)
  | [], acc => [acc.reverse]
  | c :: cs, acc =>
    if c = sep then acc.reverse :: splitCharAux sep cs []
    else splitCharAux sep cs (c :: acc)

/-- `s.split(sep)` for a one-character separator. -/
def splitChar (sep : Char) (s : String) : List String :=
  (splitCharAux sep s.data []).map (fun w => ⟨w⟩)

/-- Model of `"/".join(...)` on character lists. -/
def joinSlashL : List (List Char) → List Char
  | [] => []
  | [w] => w
  | w :: ws => w ++ '/' :: joinSlashL ws

/-- Model of `_determine_provider`, pure part: returns
(vcs_namespace, vcs_repository, provider), or `none` where the Python code
raises (unknown provider name, or an identifier with too few segments for
the indexing the dialect performs). -/
def determine_provider (w : Workspace) : Option (Option String × Option String × Option String) :=
  let provider? : Option (Option String) :=
    match w.vcsServiceProvider with
    | none => some none
    | some p =>
      match supportedProviders.lookup p with
      | some mp => some (some mp)
      | none => none
  match provider? with
  | none => none
  | some provider =>
    match w.vcsIdentifier with
    | none => some (none, none, provider)
    | some ident =>
      if ident.data.isEmpty then some (none, none, provider)
      else
        let segments := splitChar '/' ident
        if provider = some "gitlab" then
          match segments.getLast? with
          | some last =>
            some (some ⟨joinSlashL (segments.dropLast.map String.data)⟩, some last, provider)
          | none => none
        else if provider = some "azure_devops" then
          match segments.get? 1, segments.get? 3 with
          | some ns, some rp => some (some ns, some rp, provider)
          | _, _ => none
        else
          match segments.get? 0, segments.get? 1 with
          | some ns, some rp => some (some ns, some rp, provider)
          | _, _ => none

/-- Parse the digits of a version segment. -/
def parseNatL (cs : List Char) : Option Nat :=
  if cs.isEmpty then none
  else if cs.all (fun c => c.isDigit) then
    some (cs.foldl (fun n c => n * 10 + (c.toNat - 48)) 0)
  else none

/-- Parse a `major.minor.patch` version string; `none` models the
`ValueError` the semver library raises on malformed input. -/
def parseSemver (s : String) : Option (Nat × Nat × Nat) :=
  match splitChar '.' s with
  | [a, b, c] =>
    match parseNatL a.data, parseNatL b.data, parseNatL c.data with
    | some x, some y, some z => some (x, y, z)
    | _, _, _ => none
  | _ => none

/-- `semver.match(v, ">1.5.7")` on a parsed triple. -/
def semverGT157 (v : Nat × Nat × Nat) : Bool :=
  if 1 < v.1 then true
  else if v.1 = 1 then
    if 5 < v.2.1 then true
    else if v.2.1 = 5 then decide (7 < v.2.2)
    else false
  else false

/-- The version/workflow-tool selection of `_map_stacks_data`: the literal
"latest" pins 1.5.7 with TERRAFORM_FOSS; a pessimistic prefix or a version
above 1.5.7 selects OPEN_TOFU; any other parseable version keeps
TERRAFORM_FOSS; an unparseable version raises (none). -/
def terraform_version_and_tool (tv : String) : Option (String × String) :=
  if tv = "latest" then some ("1.5.7", "TERRAFORM_FOSS")
  else if startsWithChar tv '~' || startsWithChar tv '^' then some (tv, "OPEN_TOFU")
  else
    match parseSemver tv with
    | some v => some (tv, if semverGT157 v then "OPEN_TOFU" else "TERRAFORM_FOSS")
    | none => none

/-- Model of `find_workspace_variable_with_invalid_name`: skip sensitive
variables in "plain" mode and non-sensitive ones in "secret" mode, then
keep the variables of the workspace whose key fails the name pattern. -/
def find_workspace_variable_with_invalid_name (vars : List WVar) (workspace_id : String)
    (t : String) : List WVar :=
  vars.filter (fun v =>
    !((decide (v.sensitive = some true) && decide (t = "plain")) ||
      (decide (v.sensitive = some false) && decide (t = "secret"))) &&
    decide (v.workspaceId = some workspace_id) && !(validVarName v.key))

/-- The per-workspace body of `_map_stacks_data`: compute the invalid-name
variable lists, the VCS decomposition and the workflow tool, then build the
stack record; `none` where the Python code raises. -/
def map_stack_one (autoFix : Bool) (vars : List WVar) (w : Workspace) : Option StackRecord :=
  let invalidPlain := find_workspace_variable_with_invalid_name vars w.id "plain"
  let invalidSecret := find_workspace_variable_with_invalid_name vars w.id "secret"
  match determine_provider w with
  | none => none
  | some (ns, repo, provider) =>
    match terraform_version_and_tool w.terraformVersion with
    | none => none
    | some (tv, tool) =>
      some
        { space := if w.hasProjectKey then w.projectId else w.organizationId,
          source_id := w.id,
          autodeploy := w.autoApply,
          description := w.description,
          has_variables_with_invalid_name := !invalidPlain.isEmpty && !autoFix,
          has_secret_variables_with_invalid_name := !invalidSecret.isEmpty && !autoFix,
          name := w.name,
          labels := w.tagNames.getD [],
          slug := build_stack_slug w.name,
          terraform_version := tv,
          workflow_tool := tool,
          vcs_branch := w.vcsBranch,
          vcs_namespace := ns,
          vcs_project_root := w.workingDirectory,
          vcs_provider := provider,
          vcs_repository := repo }

/-- Model of `_map_stacks_data` over the workspaces collection. -/
def map_stacks_data (autoFix : Bool) (vars : List WVar) (wss : List Workspace) :
    Option (List StackRecord) :=
  optionMapM (map_stack_one autoFix vars) wss

/-- The per-variable body of `_map_stack_variables_data`: locate the owning
workspace (a missing workspace makes the Python code raise on the
subsequent benedict access, hence none), validate the key, and build the
record with the non-destructive replacement name. -/
def map_stack_variable_one (autoFix : Bool) (wss : List Workspace) (v : WVar) :
    Option StackVarRecord :=
  match wss.find? (fun w => decide (some w.id = v.workspaceId)) with
  | none => none
  | some w =>
    let valid := validVarName v.key
    some
      { space := if w.hasProjectKey then w.projectId else w.organizationId,
        stack := v.workspaceId,
        source_id := v.id,
        description := v.description,
        hcl := v.hcl,
        name := v.key,
        replacement_name :=
          if autoFix && !valid then replaceDashesWithUnderscores v.key else v.key,
        var_type := if v.category = some "terraform" then "terraform" else "env_var",
        valid_name := valid,
        value := v.value,
        write_only := v.sensitive }

/-- Model of `_map_stack_variables_data` over the workspace_variables
collection. -/
def map_stack_variables_data (autoFix : Bool) (wss : List Workspace) (vars : List WVar) :
    Option (List StackVarRecord) :=
  optionMapM (map_stack_variable_one autoFix wss) vars

/-- The workflow-tool selection property claimed for a mapped stack. -/
def c5Spec (w : Workspace) (s : StackRecord) : Prop :=
  (w.terraformVersion = "latest" →
    s.terraform_version = "1.5.7" ∧ s.workflow_tool = "TERRAFORM_FOSS") ∧
  ((startsWithChar w.terraformVersion '~' = true ∨ startsWithChar w.terraformVersion '^' = true) →
    s.workflow_tool = "OPEN_TOFU") ∧
  (∀ v, parseSemver w.terraformVersion = some v →
    startsWithChar w.terraformVersion '~' = false →
    startsWithChar w.terraformVersion '^' = false →
    (semverGT157 v = true → s.workflow_tool = "OPEN_TOFU") ∧
    (semverGT157 v = false → s.workflow_tool = "TERRAFORM_FOSS"))

/-- The invalid-name flag and replacement-name property claimed for a
non-sensitive workspace variable with an invalid key: with auto-fix off the
stack is flagged and the replacement equals the original key, with auto-fix
on the replacement has dashes replaced, the name is unchanged and the stack
flag is off. -/
def c6Spec (v : WVar) (s0 s1 : StackRecord) (sv0 sv1 : StackVarRecord) : Prop :=
  s0.has_variables_with_invalid_name = true ∧
  sv0.replacement_name = v.key ∧
  sv0.name = v.key ∧
  s1.has_variables_with_invalid_name = false ∧
  sv1.replacement_name = replaceDashesWithUnderscores v.key ∧
  sv1.name = v.key

/-! ## Enrichment saga

Models the per-organization body of `_enrich_workspace_variable_data` as
a state machine over the remote state (workspace execution settings, agent
pools, agent containers), with an injected failure point in the
per-workspace steps (backup, repoint, plan trigger, status poll, log scan)
and optionally in one of the guaranteed-cleanup actions.  Local record
mutation (recovered variable values, branch backfill) does not touch the
remote state and is not tracked.
-/

/-- The remotely stored workspace execution settings the saga backs up,
overwrites and restores. -/
structure WsAttrs where
  executionMode : Option String
  settingOverwrites : Option (List (String × Bool))
  agentPool : Option String
deriving DecidableEq

/-- A workspace in the per-organization work list; `hasConfigVersion`
models `relationships.current-configuration-version.data.id` being
present (its absence makes the loop skip the workspace). -/
structure SagaWorkspace where
  id : String
  hasConfigVersion : Bool
deriving DecidableEq

/-- The remote state: workspace settings per id, existing agent pools and
running agent containers. -/
structure Remote where
  workspaces : String → WsAttrs
  pools : List String
  containers : List String

/-- A PATCH of one workspace. -/
def patchWs (r : Remote) (wid : String) (a : WsAttrs) : Remote :=
  { r with workspaces := fun w => if w = wid then a else r.workspaces w }

/-- The settings the saga PATCHes onto a workspace to repoint it at the
ephemeral agent pool. -/
def agentAttrs (poolId : String) : WsAttrs :=
  ⟨some "agent", some [("execution-mode", true), ("agent-pool", true)], some poolId⟩

/-- The per-workspace steps at which a failure can be injected. -/
inductive StepPoint where
  | backup
  | repoint
  | plan
  | poll
  | scan
deriving DecidableEq

/-- The guaranteed-cleanup actions at which a failure can be injected. -/
inductive CleanupPoint where
  | restore
  | stopContainer
  | deletePool
deriving DecidableEq

/-- A failure specification: an optional failing step at a workspace index
and an optional failing cleanup action. -/
structure FailSpec where
  body : Option (Nat × StepPoint)
  cleanup : Option CleanupPoint
deriving DecidableEq

/-- Errors propagating out of the saga. -/
inductive SagaError where
  | step (i : Nat) (p : StepPoint)
  | cleanup (p : CleanupPoint)
deriving DecidableEq

/-- The mutable state of the per-organization loop: the remote state, the
mutation/restore/teardown counters, the `restored_agent` flag and the
current workspace backup. -/
structure LoopState where
  remote : Remote
  mutations : Nat
  restores : Nat
  stops : Nat
  poolDeletes : Nat
  restoredAgent : Bool
  currentBackup : Option (String × WsAttrs)

/-- The state after restoring the backup of one workspace: the backed up
settings are PATCHed back and the agent is marked restored. -/
def restoredState (wid : String) (b : WsAttrs) (st : LoopState) : LoopState :=
  { st with
    remote := patchWs st.remote wid b,
    restores := st.restores + 1,
    restoredAgent := true }

/-- `_restore_workspace_exec_mode` on the current backup: PATCH the backed
up settings back and mark the agent restored.  With no backup recorded the
flag logic of the source guarantees this is never reached; it is modelled
as a no-op. -/
def restoreWs (st : LoopState) : LoopState :=
  match st.currentBackup with
  | some (wid, b) => restoredState wid b st
  | none => st

/-- The state after backing up one workspace: `workspace_data_backup` and
`current_workspace_id` recorded, remote state untouched. -/
def backupState (w : SagaWorkspace) (st : LoopState) : LoopState :=
  { st with currentBackup := some (w.id, st.remote.workspaces w.id) }

/-- The state after backing up one workspace and repointing it at the
ephemeral agent pool: the mutation is applied and `restored_agent` is
cleared. -/
def mutState (poolId : String) (w : SagaWorkspace) (st : LoopState) : LoopState :=
  { st with
    currentBackup := some (w.id, st.remote.workspaces w.id),
    remote := patchWs st.remote w.id (agentAttrs poolId),
    mutations := st.mutations + 1,
    restoredAgent := false }

/-- The per-workspace loop of `_enrich_workspace_variable_data`: skip
workspaces without a configuration version; back up the execution
settings; repoint the workspace at the ephemeral pool (the mutation, which
clears `restored_agent`); trigger the plan, poll it and scan its log; then
restore the backup and set `restored_agent` again.  An injected failure at
a step aborts the loop with that error, leaving the state exactly as the
executed prefix produced it (a failure at the backup step leaves even the
backup unrecorded; a failure at the repoint step records the backup but
raises before the PATCH is applied). -/
def runBody (poolId : String) (fail : Option (Nat × StepPoint)) :
    List SagaWorkspace → Nat → LoopState → LoopState × Option SagaError
  | [], _, st => (st, none)
  | w :: ws, i, st =>
    if w.hasConfigVersion = false then
      runBody poolId fail ws (i + 1) st
    else if fail = some (i, StepPoint.backup) then
      (st, some (SagaError.step i StepPoint.backup))
    else if fail = some (i, StepPoint.repoint) then
      (backupState w st, some (SagaError.step i StepPoint.repoint))
    else if fail = some (i, StepPoint.plan) then
      (mutState poolId w st, some (SagaError.step i StepPoint.plan))
    else if fail = some (i, StepPoint.poll) then
      (mutState poolId w st, some (SagaError.step i StepPoint.poll))
    else if fail = some (i, StepPoint.scan) then
      (mutState poolId w st, some (SagaError.step i StepPoint.scan))
    else runBody poolId fail ws (i + 1) (restoreWs (mutState poolId w st))

/-- The state after `_stop_agent_container`: the ephemeral container (an
auto-removing container) is gone. -/
def stopContainerState (containerName : String) (st : LoopState) : LoopState :=
  { st with
    remote :=
      { st.remote with
        containers := st.remote.containers.filter (fun c => !(decide (c = containerName))) },
    stops := st.stops + 1 }

/-- The state after `_delete_agent_pool`: the ephemeral agent pool is
gone. -/
def deletePoolState (poolId : String) (st : LoopState) : LoopState :=
  { st with
    remote :=
      { st.remote with
        pools := st.remote.pools.filter (fun p => !(decide (p = poolId))) },
    poolDeletes := st.poolDeletes + 1 }

/-- The container-stop and pool-delete tail of the finally block.  A
failure in either action propagates immediately, skipping what follows. -/
def stopAndDelete (poolId containerName : String) (cfail : Option CleanupPoint)
    (st : LoopState) : LoopState × Option SagaError :=
  if cfail = some CleanupPoint.stopContainer then
    (st, some (SagaError.cleanup CleanupPoint.stopContainer))
  else if cfail = some CleanupPoint.deletePool then
    (stopContainerState containerName st, some (SagaError.cleanup CleanupPoint.deletePool))
  else (deletePoolState poolId (stopContainerState containerName st), none)

/-- The finally block of the per-organization loop: restore the workspace
execution mode when `restored_agent` is unset, then stop the agent
container and delete the agent pool.  A failure raised by a cleanup action
propagates at once, skipping the remaining actions. -/
def runCleanup (poolId containerName : String) (cfail : Option CleanupPoint)
    (st : LoopState) : LoopState × Option SagaError :=
  if st.restoredAgent then stopAndDelete poolId containerName cfail st
  else if cfail = some CleanupPoint.restore then
    (st, some (SagaError.cleanup CleanupPoint.restore))
  else stopAndDelete poolId containerName cfail (restoreWs st)

/-- One organization pass of `_enrich_workspace_variable_data`: create the
ephemeral agent pool and start the agent container, run the per-workspace
loop under the failure specification, then run the guaranteed cleanup.
Returns the final state, the error raised by the loop body, and the error
that actually propagates to the caller (a cleanup error replaces the body
error, as an exception raised in a Python finally block does). -/
def runSagaOrg (poolId containerName : String) (wss : List SagaWorkspace)
    (fail : FailSpec) (r0 : Remote) : LoopState × Option SagaError × Option SagaError :=
  let r1 : Remote :=
    { r0 with pools := poolId :: r0.pools, containers := containerName :: r0.containers }
  let st0 : LoopState := ⟨r1, 0, 0, 0, 0, true, none⟩
  let res := runBody poolId fail.body wss 0 st0
  let clean := runCleanup poolId containerName fail.cleanup res.1
  (clean.1, res.2,
    match clean.2 with
    | some e => some e
    | none => res.2)

/-- Relation between the loop-entry state and the loop-exit state used in
the saga proofs: the pools, containers and teardown counters are
untouched; either the agent is restored, restores match mutations and the
remote workspaces are pointwise unchanged, or the agent is pending
restoration of the recorded backup, which holds the entry value of the one
workspace that differs. -/
def bodyInv (st st2 : LoopState) : Prop :=
  st2.remote.pools = st.remote.pools ∧
  st2.remote.containers = st.remote.containers ∧
  st2.stops = st.stops ∧
  st2.poolDeletes = st.poolDeletes ∧
  ((st2.restoredAgent = true ∧ st2.restores = st2.mutations ∧
      ∀ wid, st2.remote.workspaces wid = st.remote.workspaces wid) ∨
   (st2.restoredAgent = false ∧ st2.mutations = st2.restores + 1 ∧
      ∃ wid b, st2.currentBackup = some (wid, b) ∧ b = st.remote.workspaces wid ∧
        ∀ w2, ¬ w2 = wid → st2.remote.workspaces w2 = st.remote.workspaces w2))

/-! ## Variable-set enrichment saga

Models `_enrich_variable_set_data`.  Unlike the workspace-variable saga,
its single try/finally wraps the entire multi-organization loop: the
`new_workspace`, `agent_container`, `agent_pool_id`, `var_set_id`,
`variable_set_relationship_backup` and `var_set_reset` variables are
reassigned as the loop advances, so the finally block only releases the
most recently created resources.  The SMK workspace's own execution-mode
PATCH and the data-push container are not tracked: the workspace is the
saga's disposable target and the push container is transient.
-/

/-- The variable-set steps at which a failure can be injected: the backup
GET, the attachment PATCH (which runs after `var_set_reset` is cleared),
the plan trigger/poll, and the log scan. -/
inductive VsStep where
  | backup
  | attach
  | plan
  | scan
deriving DecidableEq

/-- The cleanup actions of the variable-set saga finally block, in
source order. -/
inductive VsCleanupPoint where
  | deleteWorkspace
  | resetVarset
  | stopContainer
  | deletePool
deriving DecidableEq

/-- Errors propagating out of the variable-set saga. -/
inductive VsError where
  | step (o k : Nat) (p : VsStep)
  | cleanup (p : VsCleanupPoint)
deriving DecidableEq

/-- A failure specification for the variable-set saga: an optional failing
step at an organization/variable-set index pair and an optional failing
cleanup action. -/
structure VsFailSpec where
  body : Option (Nat × Nat × VsStep)
  cleanup : Option VsCleanupPoint
deriving DecidableEq

/-- The variable-set attachment state the saga backs up, overwrites and
resets: the global and priority attributes and the workspace/project
relationship lists. -/
structure VsAttach where
  isGlobal : Option Bool
  priority : Option Bool
  workspaces : Option (List String)
  projects : Option (List String)
deriving DecidableEq

/-- The remote state the variable-set saga touches: agent pools, agent
containers, the disposable SMK workspaces it creates, and the attachment
state of every variable set. -/
structure VsRemote where
  pools : List String
  containers : List String
  smkWorkspaces : List String
  varsets : String → VsAttach

/-- One organization in the variable-set saga work list, carrying the ids
the API and container runtime would assign to its ephemeral resources. -/
structure VsSagaOrg where
  id : String
  poolId : String
  containerName : String
  workspaceId : String
  varsets : List String
deriving DecidableEq

/-- The mutable state of the variable-set saga: the remote state, the
mutation/reset/teardown counters, the `var_set_reset` flag and the
current (most recently assigned) variable-set backup, workspace,
container and pool. -/
structure VsLoopState where
  remote : VsRemote
  mutations : Nat
  resets : Nat
  workspaceDeletes : Nat
  stops : Nat
  poolDeletes : Nat
  varSetReset : Bool
  currentVarSet : Option (String × VsAttach)
  currentWorkspace : Option String
  currentContainer : Option String
  currentPool : Option String

/-- A PATCH of one variable set. -/
def patchVs (r : VsRemote) (vsId : String) (a : VsAttach) : VsRemote :=
  { r with varsets := fun v => if v = vsId then a else r.varsets v }

/-- The attachment the saga PATCHes onto a variable set: non-global,
priority, attached to only the disposable workspace, no projects. -/
def smkAttach (newWs : String) : VsAttach :=
  ⟨some false, some true, some [newWs], some []⟩

/-- The attachment `reset_variable_set_relationships` produces: priority
and global always come from the backup, the workspace and project lists
only when the backup recorded them (a None backup list is not PATCHed, so
the current value survives). -/
def vsResetAttach (backup cur : VsAttach) : VsAttach :=
  { isGlobal := backup.isGlobal,
    priority := backup.priority,
    workspaces := match backup.workspaces with | some l => some l | none => cur.workspaces,
    projects := match backup.projects with | some l => some l | none => cur.projects }

/-- One call of `reset_variable_set_relationships`: PATCH the reset
attachment and count the reset.  The `var_set_reset` flag is managed by
the callers, as in the source. -/
def vsReset (vsId : String) (backup : VsAttach) (st : VsLoopState) : VsLoopState :=
  { st with
    remote := patchVs st.remote vsId (vsResetAttach backup (st.remote.varsets vsId)),
    resets := st.resets + 1 }

/-- The state when the attachment PATCH begins: the backup is recorded and
`var_set_reset` is cleared (the source clears the flag before issuing the
PATCH), but the mutation is not yet applied. -/
def vsBackupState (vsId : String) (st : VsLoopState) : VsLoopState :=
  { st with
    currentVarSet := some (vsId, st.remote.varsets vsId),
    varSetReset := false }

/-- The state after the attachment PATCH is applied. -/
def vsMutState (newWs vsId : String) (st : VsLoopState) : VsLoopState :=
  { st with
    currentVarSet := some (vsId, st.remote.varsets vsId),
    varSetReset := false,
    remote := patchVs st.remote vsId (smkAttach newWs),
    mutations := st.mutations + 1 }

/-- The in-loop reset after a successful scan: reset from the current
backup, then set `var_set_reset` again. -/
def vsLoopReset (st : VsLoopState) : VsLoopState :=
  match st.currentVarSet with
  | some (vsId, b) => { vsReset vsId b st with varSetReset := true }
  | none => st

/-- The per-variable-set loop of one organization pass. -/
def runVsVarsets (newWs : String) (fail : Option (Nat × Nat × VsStep)) (o : Nat) :
    List String → Nat → VsLoopState → VsLoopState × Option VsError
  | [], _, st => (st, none)
  | vs :: rest, k, st =>
    if fail = some (o, k, VsStep.backup) then (st, some (VsError.step o k VsStep.backup))
    else if fail = some (o, k, VsStep.attach) then
      (vsBackupState vs st, some (VsError.step o k VsStep.attach))
    else if fail = some (o, k, VsStep.plan) then
      (vsMutState newWs vs st, some (VsError.step o k VsStep.plan))
    else if fail = some (o, k, VsStep.scan) then
      (vsMutState newWs vs st, some (VsError.step o k VsStep.scan))
    else runVsVarsets newWs fail o rest (k + 1) (vsLoopReset (vsMutState newWs vs st))

/-- The per-organization setup: create the agent pool, start the agent
container and create the disposable SMK workspace, overwriting the
current-resource variables without releasing their previous values. -/
def vsOrgSetup (org : VsSagaOrg) (st : VsLoopState) : VsLoopState :=
  { st with
    remote :=
      { st.remote with
        pools := org.poolId :: st.remote.pools,
        containers := org.containerName :: st.remote.containers,
        smkWorkspaces := org.workspaceId :: st.remote.smkWorkspaces },
    currentPool := some org.poolId,
    currentContainer := some org.containerName,
    currentWorkspace := some org.workspaceId }

/-- The multi-organization loop of `_enrich_variable_set_data`: set up each
organization, run its variable-set loop, and stop at the first error. -/
def runVsBody (fail : Option (Nat × Nat × VsStep)) :
    List VsSagaOrg → Nat → VsLoopState → VsLoopState × Option VsError
  | [], _, st => (st, none)
  | org :: rest, o, st =>
    if (runVsVarsets org.workspaceId fail o org.varsets 0 (vsOrgSetup org st)).2 = none then
      runVsBody fail rest (o + 1)
        (runVsVarsets org.workspaceId fail o org.varsets 0 (vsOrgSetup org st)).1
    else runVsVarsets org.workspaceId fail o org.varsets 0 (vsOrgSetup org st)

/-- The state after deleting the disposable SMK workspace. -/
def vsDeleteWorkspaceState (ws : String) (st : VsLoopState) : VsLoopState :=
  { st with
    remote :=
      { st.remote with
        smkWorkspaces := st.remote.smkWorkspaces.filter (fun w => !(decide (w = ws))) },
    workspaceDeletes := st.workspaceDeletes + 1 }

/-- The state after stopping the agent container. -/
def vsStopContainerState (c : String) (st : VsLoopState) : VsLoopState :=
  { st with
    remote :=
      { st.remote with
        containers := st.remote.containers.filter (fun x => !(decide (x = c))) },
    stops := st.stops + 1 }

/-- The state after deleting the agent pool. -/
def vsDeletePoolState (p : String) (st : VsLoopState) : VsLoopState :=
  { st with
    remote :=
      { st.remote with
        pools := st.remote.pools.filter (fun x => !(decide (x = p))) },
    poolDeletes := st.poolDeletes + 1 }

/-- The pool-delete tail of the variable-set finally block. -/
def runVsCleanup4 (cfail : Option VsCleanupPoint) (st : VsLoopState) :
    VsLoopState × Option VsError :=
  match st.currentPool with
  | some p =>
    if cfail = some VsCleanupPoint.deletePool then
      (st, some (VsError.cleanup VsCleanupPoint.deletePool))
    else (vsDeletePoolState p st, none)
  | none => (st, none)

/-- The container-stop step of the variable-set finally block. -/
def runVsCleanup3 (cfail : Option VsCleanupPoint) (st : VsLoopState) :
    VsLoopState × Option VsError :=
  match st.currentContainer with
  | some c =>
    if cfail = some VsCleanupPoint.stopContainer then
      (st, some (VsError.cleanup VsCleanupPoint.stopContainer))
    else runVsCleanup4 cfail (vsStopContainerState c st)
  | none => runVsCleanup4 cfail st

/-- The conditional variable-set reset of the finally block: issued only
when `var_set_reset` is unset.  A cleared flag implies a recorded backup;
the unreachable missing-backup branch is a no-op. -/
def runVsCleanup2 (cfail : Option VsCleanupPoint) (st : VsLoopState) :
    VsLoopState × Option VsError :=
  if st.varSetReset then runVsCleanup3 cfail st
  else if cfail = some VsCleanupPoint.resetVarset then
    (st, some (VsError.cleanup VsCleanupPoint.resetVarset))
  else
    match st.currentVarSet with
    | some (vsId, b) => runVsCleanup3 cfail (vsReset vsId b st)
    | none => runVsCleanup3 cfail st

/-- The variable-set finally block: delete the disposable workspace when
one was created, reset the pending variable set, stop the container and
delete the pool.  A failure raised by any attempted action propagates at
once, skipping the remaining actions. -/
def runVsCleanup1 (cfail : Option VsCleanupPoint) (st : VsLoopState) :
    VsLoopState × Option VsError :=
  match st.currentWorkspace with
  | some ws =>
    if cfail = some VsCleanupPoint.deleteWorkspace then
      (st, some (VsError.cleanup VsCleanupPoint.deleteWorkspace))
    else runVsCleanup2 cfail (vsDeleteWorkspaceState ws st)
  | none => runVsCleanup2 cfail st

/-- The whole `_enrich_variable_set_data` saga: the multi-organization
loop wrapped in one try/finally.  Returns the final state, the body error,
and the error that propagates to the caller (a cleanup error replaces the
body error). -/
def runVsSaga (orgs : List VsSagaOrg) (fail : VsFailSpec) (r0 : VsRemote) :
    VsLoopState × Option VsError × Option VsError :=
  let st0 : VsLoopState := ⟨r0, 0, 0, 0, 0, 0, true, none, none, none, none⟩
  let res := runVsBody fail.body orgs 0 st0
  let clean := runVsCleanup1 fail.cleanup res.1
  (clean.1, res.2,
    match clean.2 with
    | some e => some e
    | none => res.2)

/-- Teardown counters untouched between two variable-set saga states. -/
def vsFrame (st st2 : VsLoopState) : Prop :=
  st2.stops = st.stops ∧ st2.poolDeletes = st.poolDeletes ∧
  st2.workspaceDeletes = st.workspaceDeletes

/-- Reset accounting invariant of the variable-set loop: either the flag
is set and every mutation has been reset, or the flag is cleared with a
recorded backup and either one mutation is pending or none was applied
(the failure struck between clearing the flag and the PATCH). -/
def vsResetInv (st2 : VsLoopState) : Prop :=
  (st2.varSetReset = true ∧ st2.resets = st2.mutations) ∨
  (st2.varSetReset = false ∧ st2.currentVarSet.isSome = true ∧
    (st2.mutations = st2.resets + 1 ∨ st2.mutations = st2.resets))

/-- The cleanup behavior claimed for the workspace-variable saga when
every cleanup action succeeds: the original body error propagates
unchanged, the container stop and pool delete run exactly once, and one
restoration is issued per applied mutation. -/
def c9WsSpec (poolId containerName : String) (wss : List SagaWorkspace) (r0 : Remote)
    (bf : Option (Nat × StepPoint)) : Prop :=
  (runSagaOrg poolId containerName wss ⟨bf, none⟩ r0).2.2
    = (runSagaOrg poolId containerName wss ⟨bf, none⟩ r0).2.1 ∧
  (runSagaOrg poolId containerName wss ⟨bf, none⟩ r0).1.stops = 1 ∧
  (runSagaOrg poolId containerName wss ⟨bf, none⟩ r0).1.poolDeletes = 1 ∧
  (runSagaOrg poolId containerName wss ⟨bf, none⟩ r0).1.restores
    = (runSagaOrg poolId containerName wss ⟨bf, none⟩ r0).1.mutations

/-- The cleanup behavior claimed for the variable-set saga when every
cleanup action succeeds: the original body error propagates unchanged;
the single finally block deletes the current disposable workspace, stops
the current container and deletes the current pool exactly once when at
least one organization was entered (and not at all otherwise); and every
applied attachment mutation is reset, with at most one extra reset of an
unchanged backup (the attach-failure window). -/
def c9VsSpec (orgs : List VsSagaOrg) (vr0 : VsRemote)
    (vbf : Option (Nat × Nat × VsStep)) : Prop :=
  (runVsSaga orgs ⟨vbf, none⟩ vr0).2.2 = (runVsSaga orgs ⟨vbf, none⟩ vr0).2.1 ∧
  (¬ orgs = [] →
    (runVsSaga orgs ⟨vbf, none⟩ vr0).1.stops = 1 ∧
    (runVsSaga orgs ⟨vbf, none⟩ vr0).1.poolDeletes = 1 ∧
    (runVsSaga orgs ⟨vbf, none⟩ vr0).1.workspaceDeletes = 1) ∧
  (orgs = [] →
    (runVsSaga orgs ⟨vbf, none⟩ vr0).1.stops = 0 ∧
    (runVsSaga orgs ⟨vbf, none⟩ vr0).1.poolDeletes = 0 ∧
    (runVsSaga orgs ⟨vbf, none⟩ vr0).1.workspaceDeletes = 0) ∧
  ((runVsSaga orgs ⟨vbf, none⟩ vr0).1.resets
      = (runVsSaga orgs ⟨vbf, none⟩ vr0).1.mutations ∨
   (runVsSaga orgs ⟨vbf, none⟩ vr0).1.resets
      = (runVsSaga orgs ⟨vbf, none⟩ vr0).1.mutations + 1)

/-! ## Concrete demonstration values used by witnesses and
counterexamples -/

/-- A mapped space record used in demonstrations. -/
def demoMappedSpace : MappedRecord := ⟨some "org-1", some "Acme", []⟩

/-- A mapped stack record referencing the space, used in demonstrations. -/
def demoMappedStack : MappedRecord :=
  ⟨some "ws-1", some "Prod App", [("space", RelRef.one (some "org-1"))]⟩

/-- A two-collection mapped data set used in demonstrations. -/
def demoData : List (String × List MappedRecord) :=
  [("spaces", [demoMappedSpace]), ("stacks", [demoMappedStack])]

/-- The expansion of `demoMappedSpace`. -/
def demoExpandedSpace : ExpandedRecord := ⟨some "org-1", some "Acme", "acme", []⟩

/-- The expansion of `demoMappedStack`. -/
def demoExpandedStack : ExpandedRecord :=
  ⟨some "ws-1", some "Prod App", "prod_app",
   [("space", ResolvedRel.one (some ⟨some "org-1", some "Acme", []⟩))]⟩

/-- A global variable set whose id slugs to the same migration id as
`demoVarSetB`. -/
def demoVarSetA : VarSet := ⟨"a-b", some "Alpha", none, true, none, none, "org-1"⟩

/-- A second global variable set with a different name and source id. -/
def demoVarSetB : VarSet := ⟨"a_b", some "Beta", none, true, none, none, "org-1"⟩

/-- A variable set attached to two projects. -/
def demoVarSetDup : VarSet :=
  ⟨"vs-1", some "Shared", some "shared values", false, some ["proj-1", "proj-2"], none, "org-1"⟩

/-- A variable set attached only at the workspace level. -/
def demoVarSetWs : VarSet :=
  ⟨"vs-2", some "WSOnly", none, false, none, some ["ws-1"], "org-1"⟩

/-- A workspace pinned to the literal "latest" terraform version. -/
def demoWorkspaceLatest : Workspace :=
  { id := "ws-1", name := "Prod App", autoApply := some true, description := none,
    terraformVersion := "latest", vcsBranch := some "main",
    vcsIdentifier := some "acme/app", vcsServiceProvider := some "github",
    workingDirectory := none, tagNames := none, organizationId := some "org-1",
    projectId := none, hasProjectKey := false }

/-- The stack mapped from `demoWorkspaceLatest` with no variables. -/
def demoStackLatest : StackRecord :=
  { space := some "org-1", source_id := "ws-1", autodeploy := some true,
    description := none, has_variables_with_invalid_name := false,
    has_secret_variables_with_invalid_name := false, name := "Prod App",
    labels := [], slug := "prod-app", terraform_version := "1.5.7",
    workflow_tool := "TERRAFORM_FOSS", vcs_branch := some "main",
    vcs_namespace := some "acme", vcs_project_root := none,
    vcs_provider := some "github_custom", vcs_repository := some "app" }

/-- A non-sensitive workspace variable with an invalid name. -/
def demoBadVar : WVar :=
  ⟨"var-1", "bad-name", none, some false, some "env", some false, none, some "ws-1"⟩

/-- The stack mapped from `demoWorkspaceLatest` with `demoBadVar` present
and auto-fix disabled. -/
def demoStackBad0 : StackRecord :=
  { demoStackLatest with has_variables_with_invalid_name := true }

/-- The stack variable mapped from `demoBadVar` with auto-fix disabled. -/
def demoStackVar0 : StackVarRecord :=
  { space := some "org-1", stack := some "ws-1", source_id := "var-1",
    description := none, hcl := some false, name := "bad-name",
    replacement_name := "bad-name", var_type := "env_var", valid_name := false,
    value := none, write_only := some false }

/-- The stack variable mapped from `demoBadVar` with auto-fix enabled. -/
def demoStackVar1 : StackVarRecord :=
  { demoStackVar0 with replacement_name := "bad_name" }

/-- A demonstration raw item. -/
def demoItem1 : RawItem := [("id", some "i1")]

/-- A second demonstration raw item. -/
def demoItem2 : RawItem := [("id", some "i2")]

/-- A third demonstration raw item. -/
def demoItem3 : RawItem := [("id", some "i3")]

/-- A first page carrying a single object and a next link. -/
def demoPage1 : Page := ⟨APIData.obj demoItem1, some "page2"⟩

/-- A last page carrying a collection and no next link. -/
def demoPage2 : Page := ⟨APIData.arr [demoItem2, demoItem3], none⟩

/-- A remote state used in saga demonstrations. -/
def demoRemote : Remote :=
  ⟨fun _ => ⟨some "remote", some [("execution-mode", false)], none⟩, [], []⟩

/-- A saga workspace used in demonstrations. -/
def demoSagaWs : SagaWorkspace := ⟨"ws1", true⟩

/-- A sensitive workspace variable with an invalid name. -/
def demoBadSecretVar : WVar :=
  ⟨"var-2", "bad-name", none, some true, some "env", some false, none, some "ws-1"⟩

/-- The stack mapped from `demoWorkspaceLatest` with `demoBadSecretVar`
present and auto-fix disabled: the plain flag stays off, the secret flag
is set. -/
def demoStackSecretBad : StackRecord :=
  { demoStackLatest with has_secret_variables_with_invalid_name := true }

/-- A first organization for the variable-set saga demonstrations. -/
def demoVsOrg1 : VsSagaOrg := ⟨"org1", "vp1", "vc1", "vw1", ["vs1"]⟩

/-- A second organization for the variable-set saga demonstrations. -/
def demoVsOrg2 : VsSagaOrg := ⟨"org2", "vp2", "vc2", "vw2", ["vs2"]⟩

/-- A remote state for the variable-set saga demonstrations. -/
def demoVsRemote : VsRemote :=
  ⟨[], [], [], fun _ => ⟨some true, some false, some [], some []⟩⟩

/-- The single-finally scope of the variable-set saga, demonstrated: after
a clean two-organization run only the second organization's pool,
container and disposable workspace are released; the first organization's
remain behind. -/
def c9LeakDemo : Prop :=
  (runVsSaga [demoVsOrg1, demoVsOrg2] ⟨none, none⟩ demoVsRemote).1.remote.pools = ["vp1"] ∧
  (runVsSaga [demoVsOrg1, demoVsOrg2] ⟨none, none⟩ demoVsRemote).1.remote.containers
    = ["vc1"] ∧
  (runVsSaga [demoVsOrg1, demoVsOrg2] ⟨none, none⟩ demoVsRemote).1.remote.smkWorkspaces
    = ["vw1"]

/-! ## Helper lemmas -/

theorem slugWordsAux_alnum (cs : List Char) :
    ∀ acc, (∀ c ∈ acc, c.isAlphanum = true) →
      ∀ w ∈ slugWordsAux cs acc, ∀ c ∈ w, c.isAlphanum = true := by
  induction cs with
  | nil =>
    intro acc hacc w hw c hc
    simp only [slugWordsAux] at hw
    split at hw
    · simp at hw
    · simp only [List.mem_singleton] at hw
      subst hw
      exact hacc c (List.mem_reverse.1 hc)
  | cons d ds ih =>
    intro acc hacc w hw c hc
    simp only [slugWordsAux] at hw
    by_cases hal : d.toLower.isAlphanum = true
    · rw [if_pos hal] at hw
      refine ih (d.toLower :: acc) ?_ w hw c hc
      intro x hx
      rcases List.mem_cons.mp hx with h | h
      · subst h; exact hal
      · exact hacc x h
    · rw [if_neg hal] at hw
      by_cases he : acc.isEmpty = true
      · rw [if_pos he] at hw
        exact ih [] (by simp) w hw c hc
      · rw [if_neg he] at hw
        rcases List.mem_cons.mp hw with h | h
        · subst h; exact hacc c (List.mem_reverse.1 hc)
        · exact ih [] (by simp) w h c hc

theorem dashJoin_mem (ws : List (List Char))
    (h : ∀ w ∈ ws, ∀ c ∈ w, c.isAlphanum = true) :
    ∀ c ∈ dashJoin ws, c.isAlphanum = true ∨ c = '-' := by
  induction ws with
  | nil => intro c hc; simp [dashJoin] at hc
  | cons w ws ih =>
    intro c hc
    cases ws with
    | nil =>
      exact Or.inl (h w (by simp) c (by simpa [dashJoin] using hc))
    | cons w2 ws2 =>
      simp only [dashJoin] at hc
      rcases List.mem_append.mp hc with h1 | h2
      · exact Or.inl (h w (by simp) c h1)
      · rcases List.mem_cons.mp h2 with h3 | h4
        · exact Or.inr h3
        · exact ih (fun x hx => h x (List.mem_cons_of_mem _ hx)) c h4

theorem slugifyL_no_underscore (cs : List Char) : '_' ∉ slugifyL cs := by
  intro hmem
  rcases dashJoin_mem (slugWordsAux cs []) (slugWordsAux_alnum cs [] (by simp)) '_' hmem
    with h1 | h1
  · exact absurd h1 (by decide)
  · exact absurd h1 (by decide)

theorem unreplace_replace (cs : List Char) (h : '_' ∉ cs) :
    unreplaceDashUnderscoreL (replaceDashUnderscoreL cs) = cs := by
  induction cs with
  | nil => rfl
  | cons c cs ih =>
    have hc : ¬ c = '_' := fun he => h (he ▸ List.mem_cons_self c cs)
    have hrest : '_' ∉ cs := fun hm => h (List.mem_cons_of_mem c hm)
    have htail := ih hrest
    simp only [replaceDashUnderscoreL, unreplaceDashUnderscoreL, List.map_cons] at htail ⊢
    by_cases hd : c = '-'
    · subst hd
      rw [if_pos rfl, if_pos rfl, htail]
    · rw [if_neg hd, if_neg hc, htail]

theorem replaceDashUnderscoreL_inj (a b : List Char) (ha : '_' ∉ a) (hb : '_' ∉ b)
    (h : replaceDashUnderscoreL a = replaceDashUnderscoreL b) : a = b := by
  have h2 := congrArg unreplaceDashUnderscoreL h
  rwa [unreplace_replace a ha, unreplace_replace b hb] at h2

theorem generate_migration_id_inj (n1 n2 : String)
    (h : ¬ slugifyL n1.data = slugifyL n2.data) :
    ¬ generate_migration_id [n1] = generate_migration_id [n2] := by
  intro he
  apply h
  have hd : replaceDashUnderscoreL (slugifyL (joinUnderscoreL [n1])) =
      replaceDashUnderscoreL (slugifyL (joinUnderscoreL [n2])) :=
    congrArg String.data he
  have hj1 : joinUnderscoreL [n1] = n1.data := rfl
  have hj2 : joinUnderscoreL [n2] = n2.data := rfl
  rw [hj1, hj2] at hd
  exact replaceDashUnderscoreL_inj _ _ (slugifyL_no_underscore n1.data)
    (slugifyL_no_underscore n2.data) hd

theorem compositeSourceId_inj (p q v : String)
    (h : compositeSourceId p v = compositeSourceId q v) : p = q := by
  have hd : p.data ++ '_' :: v.data = q.data ++ '_' :: v.data := congrArg String.data h
  have h2 : p.data = q.data := by
    have hlen : p.data.length = q.data.length := by
      have := congrArg List.length hd
      simp only [List.length_append, List.length_cons] at this
      omega
    exact List.append_inj_left hd hlen
  cases p; cases q
  exact congrArg String.mk h2

theorem optionMapM_spec {α β : Type} (f : α → Option β) (l : List α) :
    ∀ l2, optionMapM f l = some l2 →
      l2.length = l.length ∧
        ∀ i (hi : i < l.length) (hi2 : i < l2.length),
          f (l.get ⟨i, hi⟩) = some (l2.get ⟨i, hi2⟩) := by
  induction l with
  | nil =>
    intro l2 h
    simp only [optionMapM, Option.some.injEq] at h
    subst h
    exact ⟨rfl, fun i hi => absurd hi (Nat.not_lt_zero i)⟩
  | cons a as ih =>
    intro l2 h
    simp only [optionMapM] at h
    cases hfa : f a with
    | none => rw [hfa] at h; simp at h
    | some b =>
      rw [hfa] at h
      cases hrec : optionMapM f as with
      | none => rw [hrec] at h; simp at h
      | some bs =>
        rw [hrec] at h
        simp only [Option.some.injEq] at h
        subst h
        obtain ⟨hlen, hpt⟩ := ih bs hrec
        refine ⟨by simp [hlen], ?_⟩
        intro i hi hi2
        match i with
        | 0 => simpa using hfa
        | Nat.succ j =>
          have hj : j < as.length := by simpa using hi
          have hj2 : j < bs.length := by simpa using hi2
          simpa using hpt j hj hj2

theorem optionMapM_isSome {α β : Type} (f : α → Option β) (l : List α)
    (h : ∀ x ∈ l, (f x).isSome = true) : ∃ l2, optionMapM f l = some l2 := by
  induction l with
  | nil => exact ⟨[], rfl⟩
  | cons a as ih =>
    obtain ⟨b, hb⟩ := Option.isSome_iff_exists.mp (h a (List.mem_cons_self a as))
    obtain ⟨bs, hbs⟩ := ih (fun x hx => h x (List.mem_cons_of_mem a hx))
    exact ⟨b :: bs, by simp [optionMapM, hb, hbs]⟩

theorem find_entity_spec (data : List (String × List MappedRecord)) (t : String)
    (id_ : Option String) (recs : List MappedRecord)
    (hl : data.lookup (pluralize t) = some recs) :
    ∃ res, find_entity data t id_ = some res ∧ resolutionOK recs id_ res := by
  have hfe : find_entity data t id_ =
      some ((recs.find? (fun r => decide (r.source_id = id_))).map strip_rels) := by
    unfold find_entity
    rw [hl]
  cases hf : recs.find? (fun r => decide (r.source_id = id_)) with
  | none =>
    rw [hf] at hfe
    refine ⟨none, hfe, Or.inl ⟨rfl, ?_⟩⟩
    intro rec hrec heq
    have h2 := List.find?_eq_none.mp hf rec hrec
    simp [heq] at h2
  | some rec =>
    rw [hf] at hfe
    have hp := List.find?_some hf
    have hsid : rec.source_id = id_ := of_decide_eq_true hp
    exact ⟨some (strip_rels rec), hfe, Or.inr ⟨strip_rels rec, rfl, hsid, rfl⟩⟩

theorem collectRawData_chain (pages : List Page) :
    isChain pages = true →
    collectRawData pages = (pages.map (fun p => normalizeData p.data)).flatten := by
  induction pages with
  | nil => intro h; simp [isChain] at h
  | cons p ps ih =>
    intro h
    cases ps with
    | nil =>
      have hnone : p.next = none := by
        have h2 : p.next.isNone = true := by simpa [isChain] using h
        exact Option.isNone_iff_eq_none.mp h2
      simp [collectRawData, hnone]
    | cons q qs =>
      have h2 := h
      simp only [isChain, Bool.and_eq_true] at h2
      obtain ⟨hs, hch⟩ := h2
      obtain ⟨u, hu⟩ := Option.isSome_iff_exists.mp hs
      rw [collectRawData, hu]
      show normalizeData p.data ++ collectRawData (q :: qs) = _
      rw [ih hch]
      simp

theorem extractItems_no_properties (m : String → Bool) (raw : List RawItem) :
    extractItems m none raw = [] := by
  induction raw with
  | nil => rfl
  | cons r rest ih =>
    simp only [extractItems]
    split
    · exact ih
    · exact ih

theorem extractItems_empty_properties (m : String → Bool) (raw : List RawItem) :
    extractItems m (some []) raw = [] := by
  induction raw with
  | nil => rfl
  | cons r rest ih =>
    simp only [extractItems]
    split
    · exact ih
    · simpa using ih

/-! ## Claim theorems -/

/-- C2: for every API call, regardless of HTTP method and path, a response
with HTTP status 404 makes the call return an empty successful result (the
empty page, which normalizes to an empty list of items), never an error. -/
theorem c2_notfound_empty_page (method url : String) (payload : Page) :
    call_api method url (APIOutcome.response 404 payload) = Except.ok emptyPage ∧
    normalizeData emptyPage.data = [] ∧
    ∀ e : CallError,
      ¬ call_api method url (APIOutcome.response 404 payload) = Except.error e := by
  refine ⟨rfl, rfl, ?_⟩
  intro e he
  simp [call_api] at he

/-- C8: for every extraction call over a well-formed page chain (every page
but the last carries a next link, the last carries none), the pagination
loop returns the concatenation of the normalized item lists of all pages in
page order, and a single-object response and a collection response are
normalized into the same list representation. -/
theorem c8_pagination_concatenation (pages : List Page) (h : isChain pages = true) :
    collectRawData pages = (pages.map (fun p => normalizeData p.data)).flatten ∧
    (∀ r, normalizeData (APIData.obj r) = [r]) ∧
    (∀ rs, normalizeData (APIData.arr rs) = rs) :=
  ⟨collectRawData_chain pages h, fun _ => rfl, fun _ => rfl⟩

/-- Witness for C8 at a concrete two-page chain. -/
theorem c8_pagination_witness :
    collectRawData [demoPage1, demoPage2] =
      ([demoPage1, demoPage2].map (fun p => normalizeData p.data)).flatten ∧
    (∀ r, normalizeData (APIData.obj r) = [r]) ∧
    (∀ rs, normalizeData (APIData.arr rs) = rs) :=
  c8_pagination_concatenation [demoPage1, demoPage2] (by decide)

/-- C10: for every extraction call with the attribute projection absent
(None) or empty, the returned value is the empty list regardless of what
the API responded, and in particular the `_delete_agent_pool` call (which
passes no projection) always observes an empty result. -/
theorem c10_no_projection_empty (pages : List Page) (m : String → Bool) :
    extract_data_from_api pages m none = [] ∧
    extract_data_from_api pages m (some []) = [] ∧
    delete_agent_pool_result pages m = [] :=
  ⟨extractItems_no_properties m (collectRawData pages),
   extractItems_empty_properties m (collectRawData pages),
   extractItems_no_properties m (collectRawData pages)⟩

/-- C4 counterexample: in the contexts collection, two distinct records
(mapped from two global variable sets whose ids are "a-b" and "a_b", with
names "Alpha" and "Beta" that do not collide after slugging) receive the
same `_migration_id`, because `_map_contexts_data` derives migration ids
from the variable-set id, not the name, and the expander skips contexts. -/
theorem c4_counterexample :
    (map_contexts_data [demoVarSetA, demoVarSetB]).map ContextRecord.migration_id
      = ["a_b", "a_b"] ∧
    (map_contexts_data [demoVarSetA, demoVarSetB]).map ContextRecord.source_id
      = ["a-b", "a_b"] ∧
    ¬ slugify "Alpha" = slugify "Beta" := by
  decide

/-- C4 (amended): for every record processed by the relationship expander,
the migration id is the slug of the record name with dashes normalized to
underscores, and two such records whose names do not collide after slugging
receive distinct migration ids.  (Context and context-variable records are
excluded: they keep ids derived from source ids by their mapping
functions, and duplicated copies share one migration id.) -/
theorem c4_amended_migration_id_unique (data : List (String × List MappedRecord))
    (r1 r2 : MappedRecord) (n1 n2 : String) (e1 e2 : ExpandedRecord)
    (h1 : r1.name = some n1) (h2 : r2.name = some n2)
    (hs : ¬ slugifyL n1.data = slugifyL n2.data)
    (he1 : expandRecord data r1 = some e1) (he2 : expandRecord data r2 = some e2) :
    e1.migration_id = generate_migration_id [n1] ∧
    e2.migration_id = generate_migration_id [n2] ∧
    ¬ e1.migration_id = e2.migration_id := by
  have hm1 : e1.migration_id = generate_migration_id [n1] := by
    unfold expandRecord at he1
    rw [h1] at he1
    cases hmm : optionMapM (fun tr : String × RelRef =>
        (resolve_rel data tr.1 tr.2).map (fun res => (tr.1, res))) r1.rels with
    | none => rw [hmm] at he1; simp at he1
    | some resolved =>
      rw [hmm] at he1
      simp only [Option.some.injEq] at he1
      rw [← he1]
  have hm2 : e2.migration_id = generate_migration_id [n2] := by
    unfold expandRecord at he2
    rw [h2] at he2
    cases hmm : optionMapM (fun tr : String × RelRef =>
        (resolve_rel data tr.1 tr.2).map (fun res => (tr.1, res))) r2.rels with
    | none => rw [hmm] at he2; simp at he2
    | some resolved =>
      rw [hmm] at he2
      simp only [Option.some.injEq] at he2
      rw [← he2]
  refine ⟨hm1, hm2, ?_⟩
  rw [hm1, hm2]
  exact generate_migration_id_inj n1 n2 hs

/-- Witness for the amended C4 at two concrete records. -/
theorem c4_amended_witness :
    ¬ slugifyL ("Acme" : String).data = slugifyL ("Prod App" : String).data ∧
    ¬ demoExpandedSpace.migration_id = demoExpandedStack.migration_id :=
  ⟨by decide,
   (c4_amended_migration_id_unique demoData demoMappedSpace demoMappedStack
      "Acme" "Prod App" demoExpandedSpace demoExpandedStack rfl rfl (by decide)
      (by decide) (by decide)).2.2⟩

/-- C3: for every record the relationship expander processes (with a name
present and every referenced collection present in the data, as holds for
the collections `_map_data` builds), expansion succeeds, and every
relationship reference resolves to either null (when no record with that
id exists in the pluralized target collection) or an inlined record whose
`_source_id` equals the reference id and whose relationships are stripped;
a list reference becomes the ordered list of such resolutions. -/
theorem c3_relationship_resolution (data : List (String × List MappedRecord))
    (r : MappedRecord) (nm : String) (hn : r.name = some nm)
    (hcoll : ∀ tr ∈ r.rels, (data.lookup (pluralize tr.1)).isSome = true) :
    c3Resolution data r := by
  have hsome : ∀ tr ∈ r.rels,
      ((fun tr : String × RelRef =>
        (resolve_rel data tr.1 tr.2).map (fun res => (tr.1, res))) tr).isSome = true := by
    intro tr htr
    obtain ⟨recs, hrecs⟩ := Option.isSome_iff_exists.mp (hcoll tr htr)
    cases href : tr.2 with
    | one id_ =>
      obtain ⟨res, hres, _⟩ := find_entity_spec data tr.1 id_ recs hrecs
      simp [resolve_rel, href, hres]
    | many ids =>
      have hall : ∀ x ∈ ids, (find_entity data tr.1 x).isSome = true := by
        intro x hx
        obtain ⟨res, hres, _⟩ := find_entity_spec data tr.1 x recs hrecs
        simp [hres]
      obtain ⟨l2, hl2⟩ := optionMapM_isSome _ ids hall
      simp [resolve_rel, href, hl2]
  obtain ⟨resolved, hres⟩ := optionMapM_isSome
    (fun tr : String × RelRef =>
      (resolve_rel data tr.1 tr.2).map (fun res => (tr.1, res))) r.rels hsome
  obtain ⟨hlen, hpt⟩ := optionMapM_spec _ r.rels resolved hres
  refine ⟨⟨r.source_id, r.name, generate_migration_id [nm], resolved⟩, ?_, rfl, hlen, ?_⟩
  · simp [expandRecord, hn, hres]
  · intro i hi hi2
    have hpti := hpt i hi hi2
    have hpti2 : (resolve_rel data (r.rels.get ⟨i, hi⟩).1 (r.rels.get ⟨i, hi⟩).2).map
        (fun res => ((r.rels.get ⟨i, hi⟩).1, res)) = some (resolved.get ⟨i, hi2⟩) := hpti
    obtain ⟨res, hres2, hy⟩ := Option.map_eq_some'.mp hpti2
    constructor
    · rw [← hy]
    · obtain ⟨recs, hrecs⟩ :=
        Option.isSome_iff_exists.mp (hcoll (r.rels.get ⟨i, hi⟩) (List.get_mem r.rels i hi))
      refine ⟨recs, hrecs, ?_⟩
      rw [← hy]
      cases href : (r.rels.get ⟨i, hi⟩).2 with
      | one id_ =>
        rw [href] at hres2
        simp only [resolve_rel] at hres2
        obtain ⟨res0, hres0, hres0Eq⟩ := Option.map_eq_some'.mp hres2
        obtain ⟨res1, hres1, hok⟩ := find_entity_spec data (r.rels.get ⟨i, hi⟩).1 id_ recs hrecs
        rw [hres0] at hres1
        have heq : res0 = res1 := by injection hres1
        rw [← hres0Eq]
        show relResolutionOK recs (RelRef.one id_) (ResolvedRel.one res0)
        rw [heq]
        exact hok
      | many ids =>
        rw [href] at hres2
        simp only [resolve_rel] at hres2
        obtain ⟨rs, hrs, hrsEq⟩ := Option.map_eq_some'.mp hres2
        obtain ⟨hlen2, hpt2⟩ := optionMapM_spec _ ids rs hrs
        rw [← hrsEq]
        refine ⟨hlen2, ?_⟩
        intro j hj hj2
        have hptj := hpt2 j hj hj2
        obtain ⟨resj, hresj, hokj⟩ :=
          find_entity_spec data (r.rels.get ⟨i, hi⟩).1 (ids.get ⟨j, hj⟩) recs hrecs
        rw [hptj] at hresj
        have heqj : rs.get ⟨j, hj2⟩ = resj := by injection hresj
        rw [heqj]
        exact hokj

/-- Witness for C3 at a concrete mapped data set. -/
theorem c3_witness : c3Resolution demoData demoMappedStack :=
  c3_relationship_resolution demoData demoMappedStack "Prod App" rfl (by decide)

/-- C7: a non-global variable set attached to exactly two distinct projects
maps to exactly two context records with distinct composite source ids of
the form container-underscore-original and identical name and description;
a variable set attached only at the workspace level maps to exactly one
context record keeping the original variable-set id as its source id. -/
theorem c7_context_duplication (vs vs2 : VarSet) (p1 p2 : String)
    (h1 : vs.isGlobal = false) (h2 : vs.projects = some [p1, p2]) (hp : ¬ p1 = p2)
    (h3 : vs2.isGlobal = false) (h4 : hasProjects vs2 = false)
    (h5 : hasWorkspaces vs2 = true) :
    c7DupSpec vs p1 p2 ∧ c7SingleSpec vs2 := by
  constructor
  · have hpj : hasProjects vs = true := by simp [hasProjects, h2]
    refine ⟨{ migration_id := generate_migration_id [vs.id],
              source_id := compositeSourceId p1 vs.id,
              name := vs.name, description := vs.description,
              labels := ["autoattach:*"], space := generate_migration_id [p1],
              stackIds := [] },
            { migration_id := generate_migration_id [vs.id],
              source_id := compositeSourceId p2 vs.id,
              name := vs.name, description := vs.description,
              labels := ["autoattach:*"], space := generate_migration_id [p2],
              stackIds := [] },
            ?_, rfl, rfl, ?_, rfl, rfl⟩
    · simp [map_contexts_data, map_context_records, h1, hpj, h2]
    · intro he
      exact hp (compositeSourceId_inj p1 p2 vs.id he)
  · refine ⟨{ migration_id := generate_migration_id [vs2.id], source_id := vs2.id,
              name := vs2.name, description := vs2.description, labels := [],
              space := generate_migration_id [vs2.organization],
              stackIds := (vs2.workspaces.getD []).map
                (fun wid => generate_migration_id [wid]) },
            ?_, rfl⟩
    simp [map_contexts_data, map_context_records, h3, h4, h5]

/-- Witness for C7 at concrete variable sets. -/
theorem c7_witness : c7DupSpec demoVarSetDup "proj-1" "proj-2" ∧ c7SingleSpec demoVarSetWs :=
  c7_context_duplication demoVarSetDup demoVarSetWs "proj-1" "proj-2"
    rfl rfl (by decide) rfl (by decide) (by decide)

/-- C5: for every workspace mapped to a stack, the literal "latest"
terraform version pins the stack to version 1.5.7 with the TERRAFORM_FOSS
workflow tool; a version with a pessimistic prefix, or one exceeding
1.5.7, selects OPEN_TOFU; any other parseable version selects
TERRAFORM_FOSS. -/
theorem c5_workflow_tool_selection (autoFix : Bool) (vars : List WVar) (w : Workspace)
    (s : StackRecord) (h : map_stack_one autoFix vars w = some s) : c5Spec w s := by
  simp only [map_stack_one] at h
  split at h
  · simp at h
  · rename_i pr hdp
    split at h
    · simp at h
    · rename_i tv tool htv
      simp only [Option.some.injEq] at h
      subst h
      refine ⟨?_, ?_, ?_⟩
      · intro hlat
        rw [hlat] at htv
        have hlt : terraform_version_and_tool "latest" = some ("1.5.7", "TERRAFORM_FOSS") := rfl
        rw [hlt] at htv
        simp only [Option.some.injEq, Prod.mk.injEq] at htv
        exact ⟨htv.1.symm, htv.2.symm⟩
      · intro hpre
        have hnl : ¬ w.terraformVersion = "latest" := by
          intro he
          rw [he] at hpre
          rcases hpre with hx | hx <;> exact absurd hx (by decide)
        unfold terraform_version_and_tool at htv
        rw [if_neg hnl] at htv
        have hor : (startsWithChar w.terraformVersion '~' ||
            startsWithChar w.terraformVersion '^') = true := by
          rcases hpre with hx | hx <;> simp [hx]
        rw [if_pos hor] at htv
        simp only [Option.some.injEq, Prod.mk.injEq] at htv
        exact htv.2.symm
      · intro v hv h1 h2
        have hnl : ¬ w.terraformVersion = "latest" := by
          intro he
          rw [he] at hv
          have hnone : parseSemver "latest" = none := by decide
          rw [hnone] at hv
          exact Option.noConfusion hv
        unfold terraform_version_and_tool at htv
        rw [if_neg hnl] at htv
        have hor : ¬ ((startsWithChar w.terraformVersion '~' ||
            startsWithChar w.terraformVersion '^') = true) := by
          simp [h1, h2]
        rw [if_neg hor] at htv
        rw [hv] at htv
        simp only [Option.some.injEq, Prod.mk.injEq] at htv
        obtain ⟨-, htool⟩ := htv
        constructor
        · intro hgt
          rw [hgt] at htool
          simpa using htool.symm
        · intro hgt
          rw [hgt] at htool
          simpa using htool.symm

/-- Witness for C5 at a workspace declaring the "latest" version. -/
theorem c5_witness : c5Spec demoWorkspaceLatest demoStackLatest :=
  c5_workflow_tool_selection false [] demoWorkspaceLatest demoStackLatest (by decide)

/-- C6 (amended): for a non-sensitive workspace variable whose key fails
the variable-name pattern, mapping with auto-fix disabled sets the stack
flag `has_variables_with_invalid_name` and leaves the replacement name
equal to the original key; with auto-fix enabled the replacement name has
dashes replaced with underscores, the name field is unchanged, and the
stack flag is off.  (A sensitive variable with an invalid key is excluded:
it sets the parallel secret flag instead, as the counterexample shows.) -/
theorem c6_invalid_variable_name_flags (vars : List WVar) (wss : List Workspace)
    (w : Workspace) (v : WVar) (s0 s1 : StackRecord) (sv0 sv1 : StackVarRecord)
    (hv : v ∈ vars) (hw : v.workspaceId = some w.id) (hsens : v.sensitive = some false)
    (hbad : validVarName v.key = false)
    (h0 : map_stack_one false vars w = some s0)
    (h1 : map_stack_one true vars w = some s1)
    (hv0 : map_stack_variable_one false wss v = some sv0)
    (hv1 : map_stack_variable_one true wss v = some sv1) :
    c6Spec v s0 s1 sv0 sv1 := by
  have hmem : v ∈ find_workspace_variable_with_invalid_name vars w.id "plain" := by
    refine List.mem_filter.mpr ⟨hv, ?_⟩
    simp [hsens, hw, hbad]
  have hemp : (find_workspace_variable_with_invalid_name vars w.id "plain").isEmpty = false := by
    cases hval : (find_workspace_variable_with_invalid_name vars w.id "plain") with
    | nil => rw [hval] at hmem; simp at hmem
    | cons a as => simp
  have hflag0 : ∀ s2, map_stack_one false vars w = some s2 →
      s2.has_variables_with_invalid_name = true := by
    intro s2 hs2
    simp only [map_stack_one] at hs2
    split at hs2
    · simp at hs2
    · split at hs2
      · simp at hs2
      · rename_i tv tool htv
        simp only [Option.some.injEq] at hs2
        rw [← hs2]
        simp [hemp]
  have hflag1 : ∀ s2, map_stack_one true vars w = some s2 →
      s2.has_variables_with_invalid_name = false := by
    intro s2 hs2
    simp only [map_stack_one] at hs2
    split at hs2
    · simp at hs2
    · split at hs2
      · simp at hs2
      · rename_i tv tool htv
        simp only [Option.some.injEq] at hs2
        rw [← hs2]
        simp
  have hrep0 : sv0.replacement_name = v.key ∧ sv0.name = v.key := by
    simp only [map_stack_variable_one] at hv0
    split at hv0
    · simp at hv0
    · simp only [Option.some.injEq] at hv0
      rw [← hv0]
      simp
  have hrep1 : sv1.replacement_name = replaceDashesWithUnderscores v.key ∧ sv1.name = v.key := by
    simp only [map_stack_variable_one] at hv1
    split at hv1
    · simp at hv1
    · simp only [Option.some.injEq] at hv1
      rw [← hv1]
      simp [hbad]
  exact ⟨hflag0 s0 h0, hrep0.1, hrep0.2, hflag1 s1 h1, hrep1.1, hrep1.2⟩

/-- Witness for C6 at the variable named bad-name. -/
theorem c6_witness :
    c6Spec demoBadVar demoStackBad0 demoStackLatest demoStackVar0 demoStackVar1 :=
  c6_invalid_variable_name_flags [demoBadVar] [demoWorkspaceLatest] demoWorkspaceLatest
    demoBadVar demoStackBad0 demoStackLatest demoStackVar0 demoStackVar1
    (List.mem_cons_self demoBadVar []) rfl rfl (by decide)
    (by decide) (by decide) (by decide) (by decide)

theorem runBody_spec (poolId : String) (fail : Option (Nat × StepPoint))
    (wss : List SagaWorkspace) :
    ∀ (i : Nat) (st : LoopState), st.restoredAgent = true → st.restores = st.mutations →
      bodyInv st (runBody poolId fail wss i st).1 := by
  induction wss with
  | nil =>
    intro i st hra hcnt
    exact ⟨rfl, rfl, rfl, rfl, Or.inl ⟨hra, hcnt, fun _ => rfl⟩⟩
  | cons w ws ih =>
    intro i st hra hcnt
    by_cases hc : w.hasConfigVersion = false
    · have hrw : runBody poolId fail (w :: ws) i st = runBody poolId fail ws (i + 1) st := by
        simp [runBody, hc]
      rw [hrw]
      exact ih (i + 1) st hra hcnt
    · by_cases hf1 : fail = some (i, StepPoint.backup)
      · have hrw : (runBody poolId fail (w :: ws) i st).1 = st := by
          simp [runBody, hc, hf1]
        rw [hrw]
        exact ⟨rfl, rfl, rfl, rfl, Or.inl ⟨hra, hcnt, fun _ => rfl⟩⟩
      · by_cases hf2 : fail = some (i, StepPoint.repoint)
        · have hrw : (runBody poolId fail (w :: ws) i st).1 = backupState w st := by
            simp [runBody, hc, hf1, hf2]
          rw [hrw]
          exact ⟨rfl, rfl, rfl, rfl, Or.inl ⟨hra, hcnt, fun _ => rfl⟩⟩
        · have hmm : ∀ wid, ¬ wid = w.id →
              (mutState poolId w st).remote.workspaces wid = st.remote.workspaces wid := by
            intro wid hne
            simp [mutState, patchWs, hne]
          have hmut : bodyInv st (mutState poolId w st) := by
            refine ⟨rfl, rfl, rfl, rfl,
              Or.inr ⟨rfl, ?_, w.id, st.remote.workspaces w.id, rfl, rfl, hmm⟩⟩
            show st.mutations + 1 = st.restores + 1
            rw [hcnt]
          by_cases hf3 : fail = some (i, StepPoint.plan)
          · have hrw : (runBody poolId fail (w :: ws) i st).1 = mutState poolId w st := by
              simp [runBody, hc, hf1, hf2, hf3]
            rw [hrw]
            exact hmut
          · by_cases hf4 : fail = some (i, StepPoint.poll)
            · have hrw : (runBody poolId fail (w :: ws) i st).1 = mutState poolId w st := by
                simp [runBody, hc, hf1, hf2, hf3, hf4]
              rw [hrw]
              exact hmut
            · by_cases hf5 : fail = some (i, StepPoint.scan)
              · have hrw : (runBody poolId fail (w :: ws) i st).1 = mutState poolId w st := by
                  simp [runBody, hc, hf1, hf2, hf3, hf4, hf5]
                rw [hrw]
                exact hmut
              · have hrw : runBody poolId fail (w :: ws) i st
                    = runBody poolId fail ws (i + 1) (restoreWs (mutState poolId w st)) := by
                  simp [runBody, hc, hf1, hf2, hf3, hf4, hf5]
                rw [hrw]
                have hra3 : (restoreWs (mutState poolId w st)).restoredAgent = true := rfl
                have hcnt3 : (restoreWs (mutState poolId w st)).restores
                    = (restoreWs (mutState poolId w st)).mutations := by
                  show st.restores + 1 = st.mutations + 1
                  rw [hcnt]
                have hws3 : ∀ wid, (restoreWs (mutState poolId w st)).remote.workspaces wid
                    = st.remote.workspaces wid := by
                  intro wid
                  by_cases hwe : wid = w.id
                  · subst hwe
                    simp [restoreWs, restoredState, mutState, patchWs]
                  · simp [restoreWs, restoredState, mutState, patchWs, hwe]
                obtain ⟨hp3, hc3, hs3, hd3, hdisj⟩ :=
                  ih (i + 1) (restoreWs (mutState poolId w st)) hra3 hcnt3
                refine ⟨hp3, hc3, hs3, hd3, ?_⟩
                rcases hdisj with ⟨ha, hb, hcws⟩ | ⟨ha, hb, wid, b, hcb, hbv, hoth⟩
                · exact Or.inl ⟨ha, hb, fun wid => (hcws wid).trans (hws3 wid)⟩
                · exact Or.inr ⟨ha, hb, wid, b, hcb, hbv.trans (hws3 wid),
                    fun w2 hne => (hoth w2 hne).trans (hws3 w2)⟩

/-- C1: for any injected failure point inside the per-workspace steps of
the enrichment saga (backup, repoint, plan trigger, poll, log scan), every
workspace ends with the execution settings backed up before its mutation
(which, as the first mutation on that workspace, equal its pre-saga
settings), restoration is issued exactly once per applied mutation, and
the ephemeral agent pool and agent container created for the organization
no longer exist afterwards. -/
theorem c1_saga_restores_state (poolId containerName : String) (wss : List SagaWorkspace)
    (r0 : Remote) (i : Nat) (p : StepPoint) :
    (∀ wid, (runSagaOrg poolId containerName wss ⟨some (i, p), none⟩ r0).1.remote.workspaces wid
        = r0.workspaces wid) ∧
    (runSagaOrg poolId containerName wss ⟨some (i, p), none⟩ r0).1.restores
      = (runSagaOrg poolId containerName wss ⟨some (i, p), none⟩ r0).1.mutations ∧
    poolId ∉ (runSagaOrg poolId containerName wss ⟨some (i, p), none⟩ r0).1.remote.pools ∧
    containerName ∉
      (runSagaOrg poolId containerName wss ⟨some (i, p), none⟩ r0).1.remote.containers := by
  have hspec := runBody_spec poolId (some (i, p)) wss 0
    ⟨{ r0 with pools := poolId :: r0.pools, containers := containerName :: r0.containers },
     0, 0, 0, 0, true, none⟩ rfl rfl
  set st0 : LoopState :=
    ⟨{ r0 with pools := poolId :: r0.pools, containers := containerName :: r0.containers },
     0, 0, 0, 0, true, none⟩ with hst0
  set stB := (runBody poolId (some (i, p)) wss 0 st0).1 with hstB
  obtain ⟨hpB, hcB, hsB, hdB, hdisj⟩ := hspec
  have hfinal : (runSagaOrg poolId containerName wss ⟨some (i, p), none⟩ r0).1
      = (runCleanup poolId containerName none stB).1 := rfl
  rw [hfinal]
  rcases hdisj with ⟨hra, hcnt, hws⟩ | ⟨hra, hcnt, wid, b, hcb, hbv, hother⟩
  · have hclean : (runCleanup poolId containerName none stB).1
        = deletePoolState poolId (stopContainerState containerName stB) := by
      simp [runCleanup, hra, stopAndDelete]
    rw [hclean]
    refine ⟨?_, hcnt, ?_, ?_⟩
    · intro wid2
      exact hws wid2
    · intro hmem2
      have h2 := (List.mem_filter.mp hmem2).2
      simp at h2
    · intro hmem2
      have h2 := (List.mem_filter.mp hmem2).2
      simp at h2
  · have hclean : (runCleanup poolId containerName none stB).1
        = deletePoolState poolId (stopContainerState containerName (restoreWs stB)) := by
      simp [runCleanup, hra, stopAndDelete]
    rw [hclean]
    have hrwS : restoreWs stB = restoredState wid b stB := by
      simp [restoreWs, hcb]
    refine ⟨?_, ?_, ?_, ?_⟩
    · intro wid2
      show (restoreWs stB).remote.workspaces wid2 = r0.workspaces wid2
      rw [hrwS]
      by_cases hwe : wid2 = wid
      · subst hwe
        show (if wid2 = wid2 then b else stB.remote.workspaces wid2) = r0.workspaces wid2
        rw [if_pos rfl]
        exact hbv
      · show (if wid2 = wid then b else stB.remote.workspaces wid2) = r0.workspaces wid2
        rw [if_neg hwe]
        exact hother wid2 hwe
    · show (restoreWs stB).restores = (restoreWs stB).mutations
      rw [hrwS]
      exact hcnt.symm
    · show poolId ∉ (restoreWs stB).remote.pools.filter (fun p2 => !(decide (p2 = poolId)))
      rw [hrwS]
      intro hmem2
      have h2 := (List.mem_filter.mp hmem2).2
      simp at h2
    · show containerName ∉
        (restoreWs stB).remote.containers.filter (fun c => !(decide (c = containerName)))
      rw [hrwS]
      intro hmem2
      have h2 := (List.mem_filter.mp hmem2).2
      simp at h2

/-- C9 counterexample: with a failure injected at the log-scan step and a
failure raised by the workspace-restore cleanup action, the propagated
error is the cleanup error, masking the original step error, and neither
the container stop nor the pool delete runs. -/
theorem c9_counterexample :
    (runSagaOrg "pool1" "cont1" [demoSagaWs]
        ⟨some (0, StepPoint.scan), some CleanupPoint.restore⟩ demoRemote).2.1
      = some (SagaError.step 0 StepPoint.scan) ∧
    (runSagaOrg "pool1" "cont1" [demoSagaWs]
        ⟨some (0, StepPoint.scan), some CleanupPoint.restore⟩ demoRemote).2.2
      = some (SagaError.cleanup CleanupPoint.restore) ∧
    (runSagaOrg "pool1" "cont1" [demoSagaWs]
        ⟨some (0, StepPoint.scan), some CleanupPoint.restore⟩ demoRemote).1.stops = 0 ∧
    (runSagaOrg "pool1" "cont1" [demoSagaWs]
        ⟨some (0, StepPoint.scan), some CleanupPoint.restore⟩ demoRemote).1.poolDeletes = 0 := by
  decide

theorem runVsVarsets_spec (newWs : String) (fail : Option (Nat × Nat × VsStep)) (o : Nat)
    (vss : List String) :
    ∀ (k : Nat) (st : VsLoopState), st.varSetReset = true → st.resets = st.mutations →
      vsFrame st (runVsVarsets newWs fail o vss k st).1 ∧
      (runVsVarsets newWs fail o vss k st).1.currentWorkspace = st.currentWorkspace ∧
      (runVsVarsets newWs fail o vss k st).1.currentContainer = st.currentContainer ∧
      (runVsVarsets newWs fail o vss k st).1.currentPool = st.currentPool ∧
      vsResetInv (runVsVarsets newWs fail o vss k st).1 ∧
      ((runVsVarsets newWs fail o vss k st).2 = none →
        (runVsVarsets newWs fail o vss k st).1.varSetReset = true) := by
  induction vss with
  | nil =>
    intro k st hra hcnt
    exact ⟨⟨rfl, rfl, rfl⟩, rfl, rfl, rfl, Or.inl ⟨hra, hcnt⟩, fun _ => hra⟩
  | cons vs rest ih =>
    intro k st hra hcnt
    by_cases hf1 : fail = some (o, k, VsStep.backup)
    · have hrw : runVsVarsets newWs fail o (vs :: rest) k st
          = (st, some (VsError.step o k VsStep.backup)) := by
        simp [runVsVarsets, hf1]
      rw [hrw]
      refine ⟨⟨rfl, rfl, rfl⟩, rfl, rfl, rfl, Or.inl ⟨hra, hcnt⟩, ?_⟩
      intro h
      simp at h
    · by_cases hf2 : fail = some (o, k, VsStep.attach)
      · have hrw : runVsVarsets newWs fail o (vs :: rest) k st
            = (vsBackupState vs st, some (VsError.step o k VsStep.attach)) := by
          simp [runVsVarsets, hf1, hf2]
        rw [hrw]
        refine ⟨⟨rfl, rfl, rfl⟩, rfl, rfl, rfl, Or.inr ⟨rfl, rfl, Or.inr hcnt.symm⟩, ?_⟩
        intro h
        simp at h
      · by_cases hf3 : fail = some (o, k, VsStep.plan)
        · have hrw : runVsVarsets newWs fail o (vs :: rest) k st
              = (vsMutState newWs vs st, some (VsError.step o k VsStep.plan)) := by
            simp [runVsVarsets, hf1, hf2, hf3]
          rw [hrw]
          refine ⟨⟨rfl, rfl, rfl⟩, rfl, rfl, rfl,
            Or.inr ⟨rfl, rfl, Or.inl ?_⟩, ?_⟩
          · show st.mutations + 1 = st.resets + 1
            rw [hcnt]
          · intro h
            simp at h
        · by_cases hf4 : fail = some (o, k, VsStep.scan)
          · have hrw : runVsVarsets newWs fail o (vs :: rest) k st
                = (vsMutState newWs vs st, some (VsError.step o k VsStep.scan)) := by
              simp [runVsVarsets, hf1, hf2, hf3, hf4]
            rw [hrw]
            refine ⟨⟨rfl, rfl, rfl⟩, rfl, rfl, rfl,
              Or.inr ⟨rfl, rfl, Or.inl ?_⟩, ?_⟩
            · show st.mutations + 1 = st.resets + 1
              rw [hcnt]
            · intro h
              simp at h
          · have hrw : runVsVarsets newWs fail o (vs :: rest) k st
                = runVsVarsets newWs fail o rest (k + 1)
                    (vsLoopReset (vsMutState newWs vs st)) := by
              simp [runVsVarsets, hf1, hf2, hf3, hf4]
            rw [hrw]
            have hcnt3 : (vsLoopReset (vsMutState newWs vs st)).resets
                = (vsLoopReset (vsMutState newWs vs st)).mutations := by
              show st.resets + 1 = st.mutations + 1
              rw [hcnt]
            obtain ⟨⟨ha1, ha2, ha3⟩, hb1, hb2, hb3, hinv, himpl⟩ :=
              ih (k + 1) (vsLoopReset (vsMutState newWs vs st)) rfl hcnt3
            exact ⟨⟨ha1, ha2, ha3⟩, hb1, hb2, hb3, hinv, himpl⟩

theorem runVsBody_spec (fail : Option (Nat × Nat × VsStep)) (orgs : List VsSagaOrg) :
    ∀ (o : Nat) (st : VsLoopState), st.varSetReset = true → st.resets = st.mutations →
      vsFrame st (runVsBody fail orgs o st).1 ∧
      (orgs = [] → runVsBody fail orgs o st = (st, none)) ∧
      (¬ orgs = [] →
        (runVsBody fail orgs o st).1.currentWorkspace.isSome = true ∧
        (runVsBody fail orgs o st).1.currentContainer.isSome = true ∧
        (runVsBody fail orgs o st).1.currentPool.isSome = true) ∧
      vsResetInv (runVsBody fail orgs o st).1 := by
  induction orgs with
  | nil =>
    intro o st hra hcnt
    exact ⟨⟨rfl, rfl, rfl⟩, fun _ => rfl, fun h => absurd rfl h, Or.inl ⟨hra, hcnt⟩⟩
  | cons org rest ih =>
    intro o st hra hcnt
    obtain ⟨hfr, hcw, hcc, hcp, hinv, himpl⟩ :=
      runVsVarsets_spec org.workspaceId fail o org.varsets 0 (vsOrgSetup org st) hra hcnt
    by_cases herr : (runVsVarsets org.workspaceId fail o org.varsets 0 (vsOrgSetup org st)).2
        = none
    · have hrw : runVsBody fail (org :: rest) o st
          = runVsBody fail rest (o + 1)
              (runVsVarsets org.workspaceId fail o org.varsets 0 (vsOrgSetup org st)).1 := by
        simp [runVsBody, herr]
      rw [hrw]
      have hflag := himpl herr
      have hcnt2 : (runVsVarsets org.workspaceId fail o org.varsets 0 (vsOrgSetup org st)).1.resets
          = (runVsVarsets org.workspaceId fail o org.varsets 0 (vsOrgSetup org st)).1.mutations := by
        rcases hinv with ⟨-, h⟩ | ⟨hfalse, -, -⟩
        · exact h
        · rw [hflag] at hfalse
          exact absurd hfalse (by simp)
      obtain ⟨hfr2, hskip2, hsome2, hinv2⟩ := ih (o + 1) _ hflag hcnt2
      refine ⟨⟨hfr2.1.trans hfr.1, hfr2.2.1.trans hfr.2.1, hfr2.2.2.trans hfr.2.2⟩, ?_, ?_, hinv2⟩
      · intro h
        simp at h
      · intro _
        by_cases hrest : rest = []
        · have hres1 : (runVsBody fail rest (o + 1)
              (runVsVarsets org.workspaceId fail o org.varsets 0 (vsOrgSetup org st)).1).1
              = (runVsVarsets org.workspaceId fail o org.varsets 0 (vsOrgSetup org st)).1 := by
            rw [hskip2 hrest]
          refine ⟨?_, ?_, ?_⟩
          · rw [hres1, hcw]
            rfl
          · rw [hres1, hcc]
            rfl
          · rw [hres1, hcp]
            rfl
        · exact hsome2 hrest
    · have hrw : runVsBody fail (org :: rest) o st
          = runVsVarsets org.workspaceId fail o org.varsets 0 (vsOrgSetup org st) := by
        simp [runVsBody, herr]
      rw [hrw]
      refine ⟨hfr, ?_, ?_, hinv⟩
      · intro h
        simp at h
      · intro _
        refine ⟨?_, ?_, ?_⟩
        · rw [hcw]
          rfl
        · rw [hcc]
          rfl
        · rw [hcp]
          rfl

theorem runVsCleanup_none_spec (st : VsLoopState) :
    (runVsCleanup1 none st).2 = none ∧
    (runVsCleanup1 none st).1.mutations = st.mutations ∧
    (runVsCleanup1 none st).1.stops
      = st.stops + (if st.currentContainer.isSome then 1 else 0) ∧
    (runVsCleanup1 none st).1.poolDeletes
      = st.poolDeletes + (if st.currentPool.isSome then 1 else 0) ∧
    (runVsCleanup1 none st).1.workspaceDeletes
      = st.workspaceDeletes + (if st.currentWorkspace.isSome then 1 else 0) ∧
    (runVsCleanup1 none st).1.resets
      = st.resets +
        (if st.varSetReset then 0 else if st.currentVarSet.isSome then 1 else 0) := by
  obtain ⟨rem, mu, rs, wd, stp, pd, flag, cvs, cw, cc, cp⟩ := st
  rcases cw with _ | ws <;> cases flag <;> rcases cvs with _ | ⟨vsId, b⟩ <;>
    rcases cc with _ | c <;> rcases cp with _ | p <;>
      simp [runVsCleanup1, runVsCleanup2, runVsCleanup3, runVsCleanup4,
        vsDeleteWorkspaceState, vsStopContainerState, vsDeletePoolState, vsReset]

theorem c9_ws_cleanup_spec (poolId containerName : String)
    (wss : List SagaWorkspace) (r0 : Remote) (bf : Option (Nat × StepPoint)) :
    c9WsSpec poolId containerName wss r0 bf := by
  unfold c9WsSpec
  have hspec := runBody_spec poolId bf wss 0
    ⟨{ r0 with pools := poolId :: r0.pools, containers := containerName :: r0.containers },
     0, 0, 0, 0, true, none⟩ rfl rfl
  set st0 : LoopState :=
    ⟨{ r0 with pools := poolId :: r0.pools, containers := containerName :: r0.containers },
     0, 0, 0, 0, true, none⟩ with hst0
  set stB := (runBody poolId bf wss 0 st0).1 with hstB
  obtain ⟨hpB, hcB, hsB, hdB, hdisj⟩ := hspec
  have hfinal : (runSagaOrg poolId containerName wss ⟨bf, none⟩ r0).1
      = (runCleanup poolId containerName none stB).1 := rfl
  have herr : (runSagaOrg poolId containerName wss ⟨bf, none⟩ r0).2.2
      = (match (runCleanup poolId containerName none stB).2 with
         | some e => some e
         | none => (runBody poolId bf wss 0 st0).2) := rfl
  have herr1 : (runSagaOrg poolId containerName wss ⟨bf, none⟩ r0).2.1
      = (runBody poolId bf wss 0 st0).2 := rfl
  rcases hdisj with ⟨hra, hcnt, hws⟩ | ⟨hra, hcnt, wid, b, hcb, hbv, hother⟩
  · have hclean : runCleanup poolId containerName none stB
        = (deletePoolState poolId (stopContainerState containerName stB), none) := by
      simp [runCleanup, hra, stopAndDelete]
    refine ⟨?_, ?_, ?_, ?_⟩
    · rw [herr, herr1, hclean]
    · rw [hfinal, hclean]
      show stB.stops + 1 = 1
      rw [hsB]
    · rw [hfinal, hclean]
      show stB.poolDeletes + 1 = 1
      rw [hdB]
    · rw [hfinal, hclean]
      exact hcnt
  · have hclean : runCleanup poolId containerName none stB
        = (deletePoolState poolId (stopContainerState containerName (restoreWs stB)), none) := by
      simp [runCleanup, hra, stopAndDelete]
    have hrwS : restoreWs stB = restoredState wid b stB := by
      simp [restoreWs, hcb]
    refine ⟨?_, ?_, ?_, ?_⟩
    · rw [herr, herr1, hclean]
    · rw [hfinal, hclean]
      show (restoreWs stB).stops + 1 = 1
      rw [hrwS]
      show stB.stops + 1 = 1
      rw [hsB]
    · rw [hfinal, hclean]
      show (restoreWs stB).poolDeletes + 1 = 1
      rw [hrwS]
      show stB.poolDeletes + 1 = 1
      rw [hdB]
    · rw [hfinal, hclean]
      show (restoreWs stB).restores = (restoreWs stB).mutations
      rw [hrwS]
      exact hcnt.symm


theorem c9_vs_cleanup_spec (orgs : List VsSagaOrg) (vr0 : VsRemote)
    (vbf : Option (Nat × Nat × VsStep)) : c9VsSpec orgs vr0 vbf := by
  unfold c9VsSpec
  have hbody := runVsBody_spec vbf orgs 0
    ⟨vr0, 0, 0, 0, 0, 0, true, none, none, none, none⟩ rfl rfl
  set st0 : VsLoopState := ⟨vr0, 0, 0, 0, 0, 0, true, none, none, none, none⟩ with hst0
  set stB := (runVsBody vbf orgs 0 st0).1 with hstB
  obtain ⟨hfr, hskip, hsome, hinv⟩ := hbody
  obtain ⟨hcerr, hcmu, hcst, hcpd, hcwd, hcrs⟩ := runVsCleanup_none_spec stB
  have hfin : (runVsSaga orgs ⟨vbf, none⟩ vr0).1 = (runVsCleanup1 none stB).1 := rfl
  have herr2 : (runVsSaga orgs ⟨vbf, none⟩ vr0).2.2
      = (match (runVsCleanup1 none stB).2 with
         | some e => some e
         | none => (runVsBody vbf orgs 0 st0).2) := rfl
  have herr1 : (runVsSaga orgs ⟨vbf, none⟩ vr0).2.1 = (runVsBody vbf orgs 0 st0).2 := rfl
  refine ⟨?_, ?_, ?_, ?_⟩
  · rw [herr2, herr1, hcerr]
  · intro hne
    obtain ⟨hw, hc, hp⟩ := hsome hne
    refine ⟨?_, ?_, ?_⟩
    · rw [hfin, hcst, hc, hfr.1]
      simp [hst0]
    · rw [hfin, hcpd, hp, hfr.2.1]
      simp [hst0]
    · rw [hfin, hcwd, hw, hfr.2.2]
      simp [hst0]
  · intro he
    have hBeq : stB = st0 := by
      rw [hstB, hskip he]
    refine ⟨?_, ?_, ?_⟩
    · rw [hfin, hcst, hBeq]
      simp [hst0]
    · rw [hfin, hcpd, hBeq]
      simp [hst0]
    · rw [hfin, hcwd, hBeq]
      simp [hst0]
  · rcases hinv with ⟨hflag, hrm⟩ | ⟨hflag, hcvs, hmr⟩
    · left
      rw [hfin, hcrs, hcmu, hflag, hrm]
      simp
    · rcases hmr with hm1 | hm2
      · left
        rw [hfin, hcrs, hcmu, hflag, hcvs, hm1]
        simp
      · right
        rw [hfin, hcrs, hcmu, hflag, hcvs, hm2]
        simp

theorem c9_leak_spec : c9LeakDemo := by
  unfold c9LeakDemo
  decide

/-- C9 (amended): when a fatal error occurs mid-saga and every cleanup
action succeeds, each guaranteed-cleanup block runs its cleanup actions
exactly once and the original triggering error propagates unchanged: in
the workspace-variable saga the pending workspace restore (one per
applied mutation), the container stop and the pool delete; in the
variable-set saga, whose single try/finally wraps the entire
multi-organization loop, the disposable-workspace delete, the pending
variable-set reset, the container stop and the pool delete, applied only
to the most recently created resources, so a multi-organization run
leaves the earlier organizations' ephemeral resources behind.  A failure
raised by a cleanup action is not caught or logged: it propagates in
place of the original error and skips the remaining cleanup actions. -/
theorem c9_amended_cleanup_propagation (poolId containerName : String)
    (wss : List SagaWorkspace) (r0 : Remote) (bf : Option (Nat × StepPoint))
    (orgs : List VsSagaOrg) (vr0 : VsRemote) (vbf : Option (Nat × Nat × VsStep)) :
    c9WsSpec poolId containerName wss r0 bf ∧ c9VsSpec orgs vr0 vbf ∧ c9LeakDemo :=
  ⟨c9_ws_cleanup_spec poolId containerName wss r0 bf,
   c9_vs_cleanup_spec orgs vr0 vbf,
   c9_leak_spec⟩

/-- Witness for the amended C9 at concrete inputs. -/
theorem c9_amended_witness :
    c9WsSpec "pool1" "cont1" [demoSagaWs] demoRemote (some (0, StepPoint.scan)) ∧
    c9VsSpec [demoVsOrg1] demoVsRemote none ∧ c9LeakDemo :=
  c9_amended_cleanup_propagation "pool1" "cont1" [demoSagaWs] demoRemote
    (some (0, StepPoint.scan)) [demoVsOrg1] demoVsRemote none

/-- C6 counterexample: a sensitive workspace variable with the invalid key
bad-name, mapped with auto-fix disabled, leaves
`has_variables_with_invalid_name` false on its stack, contradicting the
claim; the parallel secret flag is set instead. -/
theorem c6_counterexample :
    demoBadSecretVar.sensitive = some true ∧
    validVarName demoBadSecretVar.key = false ∧
    demoBadSecretVar.workspaceId = some demoWorkspaceLatest.id ∧
    map_stack_one false [demoBadSecretVar] demoWorkspaceLatest = some demoStackSecretBad ∧
    demoStackSecretBad.has_variables_with_invalid_name = false ∧
    demoStackSecretBad.has_secret_variables_with_invalid_name = true := by
  decide
end Spacemk
